import Mathlib

/-!
Shallow embedding of `crates/next-core/src/loader_tree.rs` (the route-tree
code synthesizer) and proofs of its specification properties.

The builder state and every emission function are translated directly from
the Rust source.  External collaborators that live outside this crate
(string quoting, identifier mangling, metadata route naming, content-type
sniffing, module processing) are modelled from the spec's description of
their contracts; each such definition carries a doc comment saying so.
-/

namespace NextCore

/-- A file-system path, identified by its textual form. -/
abbrev FsPath := String

/-- A logical application page path (`AppPage` renders to its textual path). -/
abbrev AppPage := String

/-- `MetadataItem` from `app_structure`: a static file or a dynamic generator file. -/
inductive MetadataItem where
  | static (path : FsPath)
  | dynamic (path : FsPath)
deriving DecidableEq

/-- `MetadataWithAltItem` from `app_structure`: static items may carry an alt-text file. -/
inductive MetadataWithAltItem where
  | static (path : FsPath) (alt_path : Option FsPath)
  | dynamic (path : FsPath)
deriving DecidableEq

/-- The conversion `MetadataWithAltItem -> MetadataItem` used at
`(*item).into()`.  Modelled from the spec: the alt-text designation is
dropped, the static/dynamic kind and path are kept. -/
def MetadataWithAltItem.toItem : MetadataWithAltItem → MetadataItem
  | .static path _ => .static path
  | .dynamic path => .dynamic path

/-- The `Metadata` record destructured in `write_metadata`: four ordered item
lists, an optional sitemap entry (never emitted) and an optional base page. -/
structure Metadata where
  icon : List MetadataWithAltItem := []
  apple : List MetadataWithAltItem := []
  twitter : List MetadataWithAltItem := []
  open_graph : List MetadataWithAltItem := []
  sitemap : Option MetadataItem := none
  base_page : Option AppPage := none
deriving DecidableEq

/-- Modelled from the spec: `write_metadata` "operates only when the Metadata
record for the current segment is non-empty"; the record is empty when it
carries no items in any category and no sitemap entry (`Metadata::is_empty`
is declared outside this crate). -/
def Metadata.is_empty (m : Metadata) : Bool :=
  m.icon.isEmpty && m.apple.isEmpty && m.twitter.isEmpty && m.open_graph.isEmpty &&
    m.sitemap.isNone

/-- Tree-wide `GlobalMetadata`, of which `walk_tree`/`write_metadata` read the
favicon and the manifest references. -/
structure GlobalMetadata where
  favicon : Option MetadataItem := none
  manifest : Option MetadataItem := none
deriving DecidableEq

/-- The `Components` record destructured in `walk_tree`: at most one file per
slot, plus the segment's `Metadata` record.  The `route` field is ignored by
the loader-tree builder and omitted. -/
structure Components where
  page : Option FsPath := none
  default : Option FsPath := none
  error : Option FsPath := none
  global_error : Option FsPath := none
  layout : Option FsPath := none
  loading : Option FsPath := none
  template : Option FsPath := none
  not_found : Option FsPath := none
  metadata : Metadata := {}
deriving DecidableEq

/-- The input `LoaderTree`: logical page, segment label, insertion-ordered
parallel routes, components, and the tree-wide global metadata reference. -/
inductive LoaderTree where
  | mk (page : AppPage) (segment : String)
       (parallel_routes : List (String × LoaderTree))
       (components : Components) (global_metadata : GlobalMetadata)

/-- Segment label of a tree node. -/
def LoaderTree.segment : LoaderTree → String
  | .mk _ s _ _ _ => s

/-- Logical page of a tree node. -/
def LoaderTree.page : LoaderTree → AppPage
  | .mk p _ _ _ _ => p

/-- Parallel routes of a tree node, in stored insertion order. -/
def LoaderTree.parallel_routes : LoaderTree → List (String × LoaderTree)
  | .mk _ _ r _ _ => r

/-- Components record of a tree node. -/
def LoaderTree.components : LoaderTree → Components
  | .mk _ _ _ c _ => c

/-- Global metadata reference of a tree node. -/
def LoaderTree.global_metadata : LoaderTree → GlobalMetadata
  | .mk _ _ _ _ g => g

/-- A handle for a processed module.  Modelled from the spec: the external
module-processing collaborators are opaque; the handle records which
operation produced the module and with which arguments. -/
inductive ModuleRef where
  | processModule (component : FsPath)
  | structuredImage (path : FsPath)
  | textContent (path : FsPath)
  | dynamicMetadata (path : FsPath) (ty : String) (page : AppPage)
deriving DecidableEq

/-- Modelled from the spec (`resolve_module_path`): a stable path string for
a module handle, used when emitting component entries. -/
def modulePath : ModuleRef → String
  | .processModule component => component
  | .structuredImage path => path
  | .textContent path => path
  | .dynamicMetadata path _ _ => path

/-- Modelled from the spec (`metadata_route_name`): a deterministic name for
a metadata item, abstracted as the item's path. -/
def getMetadataRouteName : MetadataItem → String
  | .static path => path
  | .dynamic path => path

/-- Modelled from the spec (`content_type`): a MIME-like type string sniffed
from the file, abstracted as a function of the file location. -/
def getContentType (path : FsPath) : String := "image/" ++ path

/-- JS escaping of one character.  Modelled from the spec: `StringifyJs`
string-escaping is part of the external contract; quotes, backslashes and
newlines are escaped, every other character is kept. -/
def jsEscapeChar (c : Char) : String :=
  if c = '"' then "\\\"" else if c = '\\' then "\\\\"
  else if c = '\n' then "\\n" else String.singleton c

/-- Modelled from the spec: `StringifyJs` renders a string as a quoted,
escaped JS string literal. -/
def stringifyJs (s : String) : String :=
  "\"" ++ s.data.foldl (fun acc c => acc ++ jsEscapeChar c) "" ++ "\""

/-- Modelled from the spec (§ identifier allocator): `magic_identifier::mangle`
maps a human-readable tag to an identifier under a reserved-prefix
convention; it is injective on tags. -/
def mangle (s : String) : String := "__TURBOPACK__" ++ s ++ "__"

/-- The seven component slot kinds (`ComponentType`). -/
inductive ComponentType where
  | page
  | defaultPage
  | error
  | layout
  | loading
  | template
  | notFound
deriving DecidableEq

/-- `ComponentType::name`: the emitted slot key for each component kind. -/
def ComponentType.name : ComponentType → String
  | .page => "page"
  | .defaultPage => "defaultPage"
  | .error => "error"
  | .layout => "layout"
  | .loading => "loading"
  | .template => "template"
  | .notFound => "not-found"

/-- The reserved manifest name `GLOBAL_ERROR`. -/
def GLOBAL_ERROR : String := "GLOBAL_ERROR_MODULE"

/-- The mutable builder state (`LoaderTreeBuilder`).  The module-resolution
context and server-component transition are collaborator handles whose effect
is captured inside `ModuleRef`; the remaining fields are carried verbatim. -/
structure LoaderTreeBuilder where
  inner_assets : List (String × ModuleRef) := []
  counter : Nat := 0
  imports : List String := []
  loader_tree_code : String := ""
  pages : List FsPath := []
  base_path : Option String := none
deriving DecidableEq

/-- `LoaderTreeBuilder::new`. -/
def LoaderTreeBuilder.new (base_path : Option String) : LoaderTreeBuilder :=
  { base_path := base_path }

/-- `IndexMap::insert` on the insertion-ordered manifest: an existing key
keeps its position and gets the new value, a new key is appended. -/
def insertAsset (assets : List (String × ModuleRef)) (k : String) (v : ModuleRef) :
    List (String × ModuleRef) :=
  if assets.any fun p => p.1 = k then
    assets.map fun p => if p.1 = k then (k, v) else p
  else assets ++ [(k, v)]

/-- `LoaderTreeBuilder::unique_number`: return the counter, then increment it. -/
def LoaderTreeBuilder.uniqueNumber (b : LoaderTreeBuilder) : Nat × LoaderTreeBuilder :=
  (b.counter, { b with counter := b.counter + 1 })

/-- `LoaderTreeBuilder::write_component`. -/
def writeComponent (b : LoaderTreeBuilder) (ty : ComponentType)
    (component : Option FsPath) : LoaderTreeBuilder :=
  match component with
  | none => b
  | some component =>
    let b := if ty = ComponentType.page then { b with pages := b.pages ++ [component] } else b
    let name := ty.name
    let (i, b) := b.uniqueNumber
    let identifier := mangle (name ++ " #" ++ Nat.repr i)
    let module := ModuleRef.processModule component
    let b := { b with loader_tree_code := ( b.loader_tree_code ++
        "  " ++ stringifyJs name ++ ": [() => " ++ identifier ++ ", " ++
        stringifyJs (modulePath module) ++ "],\n" ) }
    let b := { b with imports := ( b.imports ++
        ["import * as " ++ identifier ++ " from \"COMPONENT_" ++ Nat.repr i ++ "\";\n"] ) }
    { b with inner_assets := insertAsset b.inner_assets ("COMPONENT_" ++ Nat.repr i) module }

/-- `LoaderTreeBuilder::write_metadata_manifest`. -/
def writeMetadataManifest (b : LoaderTreeBuilder) (manifest : Option MetadataItem) :
    LoaderTreeBuilder :=
  match manifest with
  | none => b
  | some manifest =>
    { b with loader_tree_code := ( b.loader_tree_code ++
        "    manifest: " ++ stringifyJs ("/" ++ getMetadataRouteName manifest) ++ ",\n" ) }

/-- The shared helper import deduplicated in `write_static_metadata_item`. -/
def helperImport : String :=
  "import \x7b fillMetadataSegment \x7d from \"next/dist/lib/metadata/get-metadata-route\""

/-- `LoaderTreeBuilder::write_static_metadata_item`. -/
def writeStaticMetadataItem (b : LoaderTreeBuilder) (app_page : AppPage) (name : String)
    (item : MetadataWithAltItem) (path : FsPath) (alt_path : Option FsPath) :
    LoaderTreeBuilder :=
  let (i, b) := b.uniqueNumber
  let identifier := mangle (name ++ " #" ++ Nat.repr i)
  let inner_module_id := "METADATA_" ++ Nat.repr i
  let b := if helperImport ∈ b.imports then b
           else { b with imports := b.imports ++ [helperImport] }
  let b := { b with imports := ( b.imports ++
      ["import " ++ identifier ++ " from \"" ++ inner_module_id ++ "\";"] ) }
  let b := { b with inner_assets := (
      insertAsset b.inner_assets inner_module_id (ModuleRef.structuredImage path) ) }
  let s := "      "
  let b := { b with loader_tree_code := ( b.loader_tree_code ++ s ++
      "(async (props) => [\x7b\n" ) }
  let pathname_prefix :=
    match b.base_path with
    | some base_path => base_path ++ "/" ++ app_page
    | none => app_page
  let metadata_route := getMetadataRouteName item.toItem
  let b := { b with loader_tree_code := ( b.loader_tree_code ++ s ++
      "  url: fillMetadataSegment(" ++ stringifyJs pathname_prefix ++ ", props.params, " ++
      stringifyJs metadata_route ++ ") + `?$\x7b" ++ identifier ++
      ".src.split(\"/\").splice(-1)[0]\x7d`,\n" ) }
  let numeric_sizes := name == "twitter" || name == "openGraph"
  let b :=
    if numeric_sizes then
      { b with loader_tree_code := ( b.loader_tree_code ++ s ++
          "  width: " ++ identifier ++ ".width,\n" ++ s ++
          "  height: " ++ identifier ++ ".height,\n" ) }
    else
      { b with loader_tree_code := ( b.loader_tree_code ++ s ++
          "  sizes: `$\x7b" ++ identifier ++ ".width\x7dx$\x7b" ++ identifier ++
          ".height\x7d`,\n" ) }
  let b := { b with loader_tree_code := ( b.loader_tree_code ++ s ++
      "  type: `" ++ getContentType path ++ "`,\n" ) }
  let b :=
    match alt_path with
    | none => b
    | some alt_path =>
      let identifier := mangle (name ++ " alt text #" ++ Nat.repr i)
      let inner_module_id := "METADATA_ALT_" ++ Nat.repr i
      let b := { b with imports := ( b.imports ++
          ["import " ++ identifier ++ " from \"" ++ inner_module_id ++ "\";"] ) }
      let b := { b with inner_assets := (
          insertAsset b.inner_assets inner_module_id (ModuleRef.textContent alt_path) ) }
      { b with loader_tree_code := ( b.loader_tree_code ++ s ++
          "  alt: " ++ identifier ++ ",\n" ) }
  { b with loader_tree_code := b.loader_tree_code ++ s ++ "\x7d]),\n" }

/-- `LoaderTreeBuilder::write_metadata_item`. -/
def writeMetadataItem (b : LoaderTreeBuilder) (app_page : AppPage) (name : String)
    (item : MetadataWithAltItem) : LoaderTreeBuilder :=
  match item with
  | .static path alt_path =>
    writeStaticMetadataItem b app_page name (MetadataWithAltItem.static path alt_path)
      path alt_path
  | .dynamic path =>
    let (i, b) := b.uniqueNumber
    let identifier := mangle (name ++ " #" ++ Nat.repr i)
    let inner_module_id := "METADATA_" ++ Nat.repr i
    let b := { b with imports := ( b.imports ++
        ["import " ++ identifier ++ " from \"" ++ inner_module_id ++ "\";"] ) }
    let b := { b with inner_assets := (
        insertAsset b.inner_assets inner_module_id
          (ModuleRef.dynamicMetadata path name app_page) ) }
    { b with loader_tree_code := b.loader_tree_code ++ "      " ++ identifier ++ ",\n" }

/-- The item loop inside `write_metadata_items`. -/
def writeItemsLoop (app_page : AppPage) (name : String) :
    List MetadataWithAltItem → LoaderTreeBuilder → LoaderTreeBuilder
  | [], b => b
  | item :: rest, b => writeItemsLoop app_page name rest (writeMetadataItem b app_page name item)

/-- `LoaderTreeBuilder::write_metadata_items`: empty lists emit nothing,
non-empty lists emit a bracketed array with one entry per item. -/
def writeMetadataItems (b : LoaderTreeBuilder) (app_page : AppPage) (name : String)
    (it : List MetadataWithAltItem) : LoaderTreeBuilder :=
  if it.isEmpty then b
  else
    let b := { b with loader_tree_code := b.loader_tree_code ++ "    " ++ name ++ ": [\n" }
    let b := writeItemsLoop app_page name it b
    { b with loader_tree_code := b.loader_tree_code ++ "    ],\n" }

/-- `LoaderTreeBuilder::write_metadata`. -/
def writeMetadata (b : LoaderTreeBuilder) (app_page : AppPage) (metadata : Metadata)
    (global_metadata : Option GlobalMetadata) : LoaderTreeBuilder :=
  if metadata.is_empty then b
  else
    let app_page := metadata.base_page.getD app_page
    let b := { b with loader_tree_code := b.loader_tree_code ++ "  metadata: \x7b" }
    let icon :=
      match global_metadata.bind GlobalMetadata.favicon with
      | some favicon =>
        (match favicon with
          | MetadataItem.static path => MetadataWithAltItem.static path none
          | MetadataItem.dynamic path => MetadataWithAltItem.dynamic path) :: metadata.icon
      | none => metadata.icon
    let b := writeMetadataItems b app_page "icon" icon
    let b := writeMetadataItems b app_page "apple" metadata.apple
    let b := writeMetadataItems b app_page "twitter" metadata.twitter
    let b := writeMetadataItems b app_page "openGraph" metadata.open_graph
    let b :=
      match global_metadata with
      | some gm => writeMetadataManifest b gm.manifest
      | none => b
    { b with loader_tree_code := b.loader_tree_code ++ "  \x7d," }

/-- The seven `write_component` calls of `walk_tree`, in source order. -/
def writeComponents (b : LoaderTreeBuilder) (comps : Components) : LoaderTreeBuilder :=
  let b := writeComponent b ComponentType.layout comps.layout
  let b := writeComponent b ComponentType.page comps.page
  let b := writeComponent b ComponentType.defaultPage comps.default
  let b := writeComponent b ComponentType.error comps.error
  let b := writeComponent b ComponentType.loading comps.loading
  let b := writeComponent b ComponentType.template comps.template
  writeComponent b ComponentType.notFound comps.not_found

mutual

/-- `LoaderTreeBuilder::walk_tree`: open token, components into a fresh
buffer, parallel routes into the restored buffer, splice, metadata (global
metadata only when `root`), close token. -/
def walkTree (b : LoaderTreeBuilder) (tree : LoaderTree) (root : Bool) :
    LoaderTreeBuilder :=
  match tree with
  | .mk app_page segment parallel_routes components global_metadata =>
    let b := { b with loader_tree_code := ( b.loader_tree_code ++
        "[" ++ stringifyJs segment ++ ", \x7b\n" ) }
    let temp_loader_tree_code := b.loader_tree_code
    let b := { b with loader_tree_code := "" }
    let b := writeComponents b components
    let components_code := b.loader_tree_code
    let b := { b with loader_tree_code := temp_loader_tree_code }
    let b := walkRoutes b parallel_routes
    let b := { b with loader_tree_code := b.loader_tree_code ++ "\x7d, \x7b\n" }
    let b := { b with loader_tree_code := b.loader_tree_code ++ components_code }
    let b := writeMetadata b app_page components.metadata
        (if root then some global_metadata else none)
    { b with loader_tree_code := b.loader_tree_code ++ "\x7d]" }

/-- The parallel-routes loop inside `walk_tree`: each child key is emitted,
the subtree is walked with `root := false`, then a separator. -/
def walkRoutes (b : LoaderTreeBuilder) :
    List (String × LoaderTree) → LoaderTreeBuilder
  | [] => b
  | (key, t) :: rest =>
    let b := { b with loader_tree_code := b.loader_tree_code ++ stringifyJs key ++ ": " }
    let b := walkTree b t false
    let b := { b with loader_tree_code := b.loader_tree_code ++ ",\n" }
    walkRoutes b rest

end

/-- The produced artifact (`LoaderTreeModule`). -/
structure LoaderTreeModule where
  imports : List String
  loader_tree_code : String
  inner_assets : List (String × ModuleRef)
  pages : List FsPath
deriving DecidableEq

/-- `LoaderTreeBuilder::build`: register the global error module under the
reserved name, then walk the tree from the root. -/
def LoaderTreeBuilder.build (b : LoaderTreeBuilder) (tree : LoaderTree) :
    LoaderTreeModule :=
  let b :=
    match tree.components.global_error with
    | some global_error =>
      { b with inner_assets := (
          insertAsset b.inner_assets GLOBAL_ERROR (ModuleRef.processModule global_error) ) }
    | none => b
  let b := walkTree b tree true
  { imports := b.imports, loader_tree_code := b.loader_tree_code,
    inner_assets := b.inner_assets, pages := b.pages }

/-- `LoaderTreeModule::build`: compile a tree from a fresh builder. -/
def LoaderTreeModule.build (tree : LoaderTree) (base_path : Option String) :
    LoaderTreeModule :=
  LoaderTreeBuilder.build (LoaderTreeBuilder.new base_path) tree


/-! ### Decimal representation facts

`format!("{i}")` renders a counter as `Nat.repr i`.  Distinctness of
generated names needs injectivity of `Nat.repr` and the fact that its
characters are digits. -/

/-- Decimal digit characters of a natural number, most significant first. -/
def natChars (n : Nat) : List Char :=
  if _h : n < 10 then [Nat.digitChar n]
  else natChars (n / 10) ++ [Nat.digitChar (n % 10)]
termination_by n
decreasing_by
  exact Nat.div_lt_self (Nat.lt_of_lt_of_le (by norm_num) (Nat.not_lt.mp _h)) (by norm_num)

/-- Numeric value of a digit character. -/
def digitVal (c : Char) : Nat := c.toNat - 48

/-- Value of a digit-character list, most significant first. -/
def ofChars (l : List Char) : Nat := l.foldl (fun a c => 10 * a + digitVal c) 0

theorem digitVal_digitChar : ∀ d : Nat, d < 10 → digitVal (Nat.digitChar d) = d := by decide

theorem isDigit_digitChar : ∀ d : Nat, d < 10 → (Nat.digitChar d).isDigit = true := by decide

theorem ofChars_append (xs : List Char) (c : Char) :
    ofChars (xs ++ [c]) = 10 * ofChars xs + digitVal c := by
  simp [ofChars, List.foldl_append]

theorem ofChars_natChars (n : Nat) : ofChars (natChars n) = n := by
  induction n using Nat.strong_induction_on with
  | _ n ih =>
    rw [natChars]
    by_cases h : n < 10
    · simp only [h, dif_pos]
      simp [ofChars, digitVal_digitChar n h]
    · simp only [h, dif_neg, not_false_iff]
      rw [ofChars_append,
        ih (n / 10) (Nat.div_lt_self (Nat.lt_of_lt_of_le (by norm_num) (Nat.not_lt.mp h))
          (by norm_num)),
        digitVal_digitChar (n % 10) (Nat.mod_lt n (by norm_num))]
      exact Nat.div_add_mod n 10

theorem natChars_isDigit (n : Nat) : ∀ c ∈ natChars n, c.isDigit = true := by
  induction n using Nat.strong_induction_on with
  | _ n ih =>
    rw [natChars]
    by_cases h : n < 10
    · simp only [h, dif_pos]
      intro c hc
      rw [List.mem_singleton] at hc
      exact hc ▸ isDigit_digitChar n h
    · simp only [h, dif_neg, not_false_iff]
      intro c hc
      rcases List.mem_append.mp hc with h1 | h2
      · exact ih (n / 10)
          (Nat.div_lt_self (Nat.lt_of_lt_of_le (by norm_num) (Nat.not_lt.mp h)) (by norm_num))
          c h1
      · rw [List.mem_singleton] at h2
        exact h2 ▸ isDigit_digitChar (n % 10) (Nat.mod_lt n (by norm_num))

theorem natChars_injective : Function.Injective natChars := by
  intro m n h
  have := ofChars_natChars m
  rw [h, ofChars_natChars] at this
  exact this.symm

theorem toDigitsCore_eq (fuel : Nat) :
    ∀ (n : Nat) (ds : List Char), n < fuel →
      Nat.toDigitsCore 10 fuel n ds = natChars n ++ ds := by
  induction fuel with
  | zero => intro n ds h; exact absurd h (Nat.not_lt_zero n)
  | succ fuel ih =>
    intro n ds h
    rw [Nat.toDigitsCore]
    by_cases h10 : n < 10
    · have hdiv : n / 10 = 0 := Nat.div_eq_of_lt h10
      have hmod : n % 10 = n := Nat.mod_eq_of_lt h10
      simp only [hdiv, hmod, if_pos]
      rw [natChars]
      simp [h10]
    · have hdiv : ¬ n / 10 = 0 := by omega
      rw [if_neg hdiv]
      have hlt : n / 10 < fuel := by
        have h1 : n / 10 < n :=
          Nat.div_lt_self (Nat.lt_of_lt_of_le (by norm_num) (Nat.not_lt.mp h10)) (by norm_num)
        omega
      rw [ih (n / 10) (Nat.digitChar (n % 10) :: ds) hlt]
      conv_rhs => rw [natChars]
      simp [h10]

theorem repr_eq_natChars (n : Nat) : Nat.repr n = (natChars n).asString := by
  have : Nat.toDigits 10 n = natChars n ++ [] := toDigitsCore_eq (n + 1) n [] (Nat.lt_succ_self n)
  rw [Nat.repr, this, List.append_nil]

theorem repr_data (n : Nat) : (Nat.repr n).data = natChars n := by
  rw [repr_eq_natChars]
  rfl

theorem repr_injective : Function.Injective Nat.repr := by
  intro m n h
  apply natChars_injective
  have := congrArg String.data h
  rwa [repr_data, repr_data] at this

theorem repr_isDigit (n : Nat) : ∀ c ∈ (Nat.repr n).data, c.isDigit = true := by
  rw [repr_data]; exact natChars_isDigit n

/-! ### Separation of generated names

Generated identifiers are `mangle "<tag> #<counter>"` and manifest keys are
`"<FAMILY>_<counter>"`.  Distinct allocations yield distinct names because
tags contain no `#`, counters render as digits, and `mangle` is injective. -/

theorem append_cons_inj {α : Type} (c : α) :
    ∀ (xs xs' ys ys' : List α), c ∉ xs → c ∉ xs' →
      xs ++ c :: ys = xs' ++ c :: ys' → xs = xs' ∧ ys = ys' := by
  intro xs
  induction xs with
  | nil =>
    intro xs' ys ys' _ hx' h
    cases xs' with
    | nil => simpa using h
    | cons a t =>
      simp only [List.nil_append, List.cons_append, List.cons.injEq] at h
      exact absurd (h.1 ▸ List.mem_cons_self a t) hx'
  | cons a t ih =>
    intro xs' ys ys' hx hx' h
    cases xs' with
    | nil =>
      simp only [List.cons_append, List.nil_append, List.cons.injEq] at h
      exact absurd (h.1.symm ▸ List.mem_cons_self a t) hx
    | cons a' t' =>
      simp only [List.cons_append, List.cons.injEq] at h
      have := ih t' ys ys' (fun hm => hx (List.mem_cons_of_mem a hm))
        (fun hm => hx' (List.mem_cons_of_mem a' hm)) h.2
      exact ⟨by rw [h.1, this.1], this.2⟩

theorem string_data_inj {a b : String} (h : a.data = b.data) : a = b := String.ext h

theorem string_append_cancel_left {a b c : String} (h : a ++ b = a ++ c) : b = c := by
  apply string_data_inj
  have := congrArg String.data h
  simp only [String.data_append] at this
  exact List.append_cancel_left this

theorem string_append_cancel_right {a b c : String} (h : a ++ c = b ++ c) : a = b := by
  apply string_data_inj
  have := congrArg String.data h
  simp only [String.data_append] at this
  exact List.append_cancel_right this

theorem mangle_injective {a b : String} (h : mangle a = mangle b) : a = b := by
  have h' : "__TURBOPACK__" ++ a ++ "__" = "__TURBOPACK__" ++ b ++ "__" := h
  rw [String.append_assoc, String.append_assoc] at h'
  have h1 := string_append_cancel_left h'
  exact string_append_cancel_right h1

/-- The tag rendered by `format!("{name} #{i}")`. -/
def tagStr (name : String) (i : Nat) : String := name ++ " #" ++ Nat.repr i

theorem tagStr_inj {n1 n2 : String} {i j : Nat}
    (h1 : '#' ∉ n1.data) (h2 : '#' ∉ n2.data) (h : tagStr n1 i = tagStr n2 j) :
    n1 = n2 ∧ i = j := by
  unfold tagStr at h
  have hd := congrArg String.data h
  simp only [String.data_append] at hd
  have hd' : (n1.data ++ [' ']) ++ '#' :: (Nat.repr i).data
      = (n2.data ++ [' ']) ++ '#' :: (Nat.repr j).data := by
    simpa using hd
  have hno1 : '#' ∉ n1.data ++ [' '] := by
    intro hm
    rcases List.mem_append.mp hm with hm | hm
    · exact h1 hm
    · simp at hm
  have hno2 : '#' ∉ n2.data ++ [' '] := by
    intro hm
    rcases List.mem_append.mp hm with hm | hm
    · exact h2 hm
    · simp at hm
  have := append_cons_inj '#' _ _ _ _ hno1 hno2 hd'
  refine ⟨string_data_inj (List.append_cancel_right this.1), repr_injective ?_⟩
  exact string_data_inj this.2

theorem natChars_ne_nil (n : Nat) : natChars n ≠ [] := by
  rw [natChars]
  by_cases h : n < 10 <;> simp [h]

theorem repr_head_isDigit (n : Nat) :
    ∀ c, (Nat.repr n).data.head? = some c → c.isDigit = true := by
  intro c hc
  apply repr_isDigit n
  exact List.mem_of_mem_head? hc

/-- Counter-indexed manifest key families. -/
def componentKey (i : Nat) : String := "COMPONENT_" ++ Nat.repr i

/-- Metadata manifest key for counter `i`. -/
def metadataKey (i : Nat) : String := "METADATA_" ++ Nat.repr i

/-- Alt-text manifest key for counter `i`. -/
def metadataAltKey (i : Nat) : String := "METADATA_ALT_" ++ Nat.repr i

theorem componentKey_inj {i j : Nat} (h : componentKey i = componentKey j) : i = j :=
  repr_injective (string_append_cancel_left h)

theorem metadataKey_inj {i j : Nat} (h : metadataKey i = metadataKey j) : i = j :=
  repr_injective (string_append_cancel_left h)

theorem metadataAltKey_inj {i j : Nat} (h : metadataAltKey i = metadataAltKey j) : i = j :=
  repr_injective (string_append_cancel_left h)

theorem head_of_append_data (pre r : String) (c : Char) (hc : pre.data.head? = some c) :
    (pre ++ r).data.head? = some c := by
  rw [String.data_append]
  cases hp : pre.data with
  | nil => rw [hp] at hc; simp at hc
  | cons a t => rw [hp] at hc; simp at hc; simp [hp, hc]

theorem componentKey_ne_metadataKey (i j : Nat) : componentKey i ≠ metadataKey j := by
  intro h
  have h1 : (componentKey i).data.head? = some 'C' :=
    head_of_append_data "COMPONENT_" (Nat.repr i) 'C' rfl
  have h2 : (metadataKey j).data.head? = some 'M' :=
    head_of_append_data "METADATA_" (Nat.repr j) 'M' rfl
  rw [h, h2] at h1
  simp at h1

theorem componentKey_ne_metadataAltKey (i j : Nat) : componentKey i ≠ metadataAltKey j := by
  intro h
  have h1 : (componentKey i).data.head? = some 'C' :=
    head_of_append_data "COMPONENT_" (Nat.repr i) 'C' rfl
  have h2 : (metadataAltKey j).data.head? = some 'M' :=
    head_of_append_data "METADATA_ALT_" (Nat.repr j) 'M' rfl
  rw [h, h2] at h1
  simp at h1

theorem metadataKey_ne_metadataAltKey (i j : Nat) : metadataKey i ≠ metadataAltKey j := by
  intro h
  have hd := congrArg String.data h
  unfold metadataKey metadataAltKey at hd
  simp only [String.data_append] at hd
  have hconc : (['M', 'E', 'T', 'A', 'D', 'A', 'T', 'A', '_', 'A', 'L', 'T', '_'] : List Char)
      = ['M', 'E', 'T', 'A', 'D', 'A', 'T', 'A', '_'] ++ ['A', 'L', 'T', '_'] := by decide
  rw [hconc, List.append_assoc] at hd
  have h2 := List.append_cancel_left hd
  have hhead : (Nat.repr i).data.head? = some 'A' := by
    rw [h2]
    rfl
  have := repr_head_isDigit i 'A' hhead
  simp [Char.isDigit] at this

theorem global_error_ne_componentKey (i : Nat) : GLOBAL_ERROR ≠ componentKey i := by
  intro h
  have h1 : (componentKey i).data.head? = some 'C' :=
    head_of_append_data "COMPONENT_" (Nat.repr i) 'C' rfl
  rw [← h] at h1
  have h2 : ¬ GLOBAL_ERROR.data.head? = some 'C' := by decide
  exact h2 h1

theorem global_error_ne_metadataKey (i : Nat) : GLOBAL_ERROR ≠ metadataKey i := by
  intro h
  have h1 : (metadataKey i).data.head? = some 'M' :=
    head_of_append_data "METADATA_" (Nat.repr i) 'M' rfl
  rw [← h] at h1
  have h2 : ¬ GLOBAL_ERROR.data.head? = some 'M' := by decide
  exact h2 h1

theorem global_error_ne_metadataAltKey (i : Nat) : GLOBAL_ERROR ≠ metadataAltKey i := by
  intro h
  have h1 : (metadataAltKey i).data.head? = some 'M' :=
    head_of_append_data "METADATA_ALT_" (Nat.repr i) 'M' rfl
  rw [← h] at h1
  have h2 : ¬ GLOBAL_ERROR.data.head? = some 'M' := by decide
  exact h2 h1


/-! ### Emission traces

A `Trace` is the compositional description of everything one emission step
produces: program text, import events, manifest insertions, generated
identifier tags, and collected pages.  The trace functions below mirror the
builder functions with the counter made explicit; the refinement theorems
show that running the builder equals replaying the trace. -/

/-- One import emission: either the shared, deduplicated helper import or a
plain appended statement. -/
inductive ImportEvent where
  | helper
  | plain (stmt : String)
deriving DecidableEq

/-- Replay import events onto an import list: the helper import is appended
only if absent, plain statements are always appended. -/
def foldEvents (imports : List String) : List ImportEvent → List String
  | [] => imports
  | ImportEvent.helper :: es =>
    foldEvents (if helperImport ∈ imports then imports else imports ++ [helperImport]) es
  | ImportEvent.plain stmt :: es => foldEvents (imports ++ [stmt]) es

theorem foldEvents_append (imports : List String) (e1 e2 : List ImportEvent) :
    foldEvents imports (e1 ++ e2) = foldEvents (foldEvents imports e1) e2 := by
  induction e1 generalizing imports with
  | nil => rfl
  | cons e es ih =>
    cases e with
    | helper =>
      simp only [List.cons_append, foldEvents]
      exact ih _
    | plain stmt =>
      simp only [List.cons_append, foldEvents]
      exact ih _

/-- The bundle of effects of one emission step. -/
structure Trace where
  code : String := ""
  events : List ImportEvent := []
  assets : List (String × ModuleRef) := []
  idents : List (String × Nat) := []
  pages : List FsPath := []
deriving DecidableEq

/-- Sequential composition of traces. -/
def Trace.seq (t1 t2 : Trace) : Trace :=
  { code := t1.code ++ t2.code, events := t1.events ++ t2.events,
    assets := t1.assets ++ t2.assets, idents := t1.idents ++ t2.idents,
    pages := t1.pages ++ t2.pages }

/-- A trace that only emits program text. -/
def Trace.emit (s : String) : Trace := { code := s }

/-- Trace of `write_component`. -/
def componentTrace (ty : ComponentType) (component : Option FsPath) (c : Nat) :
    Trace × Nat :=
  match component with
  | none => ({}, c)
  | some component =>
    let name := ty.name
    let identifier := mangle (name ++ " #" ++ Nat.repr c)
    ({ code := "  " ++ stringifyJs name ++ ": [() => " ++ identifier ++ ", " ++
         stringifyJs (modulePath (ModuleRef.processModule component)) ++ "],\n",
       events := [ImportEvent.plain
         ("import * as " ++ identifier ++ " from \"COMPONENT_" ++ Nat.repr c ++ "\";\n")],
       assets := [(componentKey c, ModuleRef.processModule component)],
       idents := [(name, c)],
       pages := if ty = ComponentType.page then [component] else [] }, c + 1)

/-- Trace of the seven `write_component` calls of `walk_tree`, in call order. -/
def componentsTrace (comps : Components) (c : Nat) : Trace × Nat :=
  let p1 := componentTrace ComponentType.layout comps.layout c
  let p2 := componentTrace ComponentType.page comps.page p1.2
  let p3 := componentTrace ComponentType.defaultPage comps.default p2.2
  let p4 := componentTrace ComponentType.error comps.error p3.2
  let p5 := componentTrace ComponentType.loading comps.loading p4.2
  let p6 := componentTrace ComponentType.template comps.template p5.2
  let p7 := componentTrace ComponentType.notFound comps.not_found p6.2
  (p1.1.seq (p2.1.seq (p3.1.seq (p4.1.seq (p5.1.seq (p6.1.seq p7.1))))), p7.2)

/-- Trace of `write_metadata_manifest`. -/
def manifestTrace (manifest : Option MetadataItem) : Trace :=
  match manifest with
  | none => {}
  | some manifest =>
    Trace.emit ("    manifest: " ++ stringifyJs ("/" ++ getMetadataRouteName manifest) ++ ",\n")

/-- Trace of `write_static_metadata_item`. -/
def staticItemTrace (bp : Option String) (app_page : AppPage) (name : String)
    (item : MetadataWithAltItem) (path : FsPath) (alt_path : Option FsPath) (c : Nat) :
    Trace × Nat :=
  let identifier := mangle (name ++ " #" ++ Nat.repr c)
  let s := "      "
  let pathname_prefix :=
    match bp with
    | some base_path => base_path ++ "/" ++ app_page
    | none => app_page
  let url_code := s ++ "  url: fillMetadataSegment(" ++ stringifyJs pathname_prefix ++
      ", props.params, " ++ stringifyJs (getMetadataRouteName item.toItem) ++ ") + `?$\x7b" ++
      identifier ++ ".src.split(\"/\").splice(-1)[0]\x7d`,\n"
  let size_code :=
    if name == "twitter" || name == "openGraph" then
      s ++ "  width: " ++ identifier ++ ".width,\n" ++ s ++
        "  height: " ++ identifier ++ ".height,\n"
    else
      s ++ "  sizes: `$\x7b" ++ identifier ++ ".width\x7dx$\x7b" ++ identifier ++
        ".height\x7d`,\n"
  let type_code := s ++ "  type: `" ++ getContentType path ++ "`,\n"
  let altTrace :=
    match alt_path with
    | none => ({} : Trace)
    | some alt_path =>
      let alt_identifier := mangle (name ++ " alt text #" ++ Nat.repr c)
      { code := s ++ "  alt: " ++ alt_identifier ++ ",\n",
        events := [ImportEvent.plain
          ("import " ++ alt_identifier ++ " from \"METADATA_ALT_" ++ Nat.repr c ++ "\";")],
        assets := [(metadataAltKey c, ModuleRef.textContent alt_path)],
        idents := [(name ++ " alt text", c)],
        pages := [] }
  ({ code := s ++ "(async (props) => [\x7b\n" ++ url_code ++ size_code ++ type_code ++
       altTrace.code ++ s ++ "\x7d]),\n",
     events := [ImportEvent.helper,
       ImportEvent.plain ("import " ++ identifier ++ " from \"METADATA_" ++ Nat.repr c ++ "\";")]
       ++ altTrace.events,
     assets := [(metadataKey c, ModuleRef.structuredImage path)] ++ altTrace.assets,
     idents := [(name, c)] ++ altTrace.idents,
     pages := [] }, c + 1)

/-- Trace of `write_metadata_item`. -/
def itemTrace (bp : Option String) (app_page : AppPage) (name : String)
    (item : MetadataWithAltItem) (c : Nat) : Trace × Nat :=
  match item with
  | .static path alt_path =>
    staticItemTrace bp app_page name (MetadataWithAltItem.static path alt_path) path alt_path c
  | .dynamic path =>
    let identifier := mangle (name ++ " #" ++ Nat.repr c)
    ({ code := "      " ++ identifier ++ ",\n",
       events := [ImportEvent.plain
         ("import " ++ identifier ++ " from \"METADATA_" ++ Nat.repr c ++ "\";")],
       assets := [(metadataKey c, ModuleRef.dynamicMetadata path name app_page)],
       idents := [(name, c)],
       pages := [] }, c + 1)

/-- Trace of the item loop of `write_metadata_items`. -/
def itemsLoopTrace (bp : Option String) (app_page : AppPage) (name : String) :
    List MetadataWithAltItem → Nat → Trace × Nat
  | [], c => ({}, c)
  | item :: rest, c =>
    let p1 := itemTrace bp app_page name item c
    let p2 := itemsLoopTrace bp app_page name rest p1.2
    (p1.1.seq p2.1, p2.2)

/-- Trace of `write_metadata_items`. -/
def itemsTrace (bp : Option String) (app_page : AppPage) (name : String)
    (it : List MetadataWithAltItem) (c : Nat) : Trace × Nat :=
  if it.isEmpty then ({}, c)
  else
    let p := itemsLoopTrace bp app_page name it c
    ((Trace.emit ("    " ++ name ++ ": [\n")).seq (p.1.seq (Trace.emit "    ],\n")), p.2)

/-- Trace of `write_metadata`. -/
def metadataTrace (bp : Option String) (app_page : AppPage) (metadata : Metadata)
    (global_metadata : Option GlobalMetadata) (c : Nat) : Trace × Nat :=
  if metadata.is_empty then ({}, c)
  else
    let app_page := metadata.base_page.getD app_page
    let icon :=
      match global_metadata.bind GlobalMetadata.favicon with
      | some favicon =>
        (match favicon with
          | MetadataItem.static path => MetadataWithAltItem.static path none
          | MetadataItem.dynamic path => MetadataWithAltItem.dynamic path) :: metadata.icon
      | none => metadata.icon
    let p1 := itemsTrace bp app_page "icon" icon c
    let p2 := itemsTrace bp app_page "apple" metadata.apple p1.2
    let p3 := itemsTrace bp app_page "twitter" metadata.twitter p2.2
    let p4 := itemsTrace bp app_page "openGraph" metadata.open_graph p3.2
    let t5 :=
      match global_metadata with
      | some gm => manifestTrace gm.manifest
      | none => ({} : Trace)
    ((Trace.emit "  metadata: \x7b").seq
      (p1.1.seq (p2.1.seq (p3.1.seq (p4.1.seq (t5.seq (Trace.emit "  \x7d,")))))), p4.2)

mutual

/-- Trace of `walk_tree`: effect order is components, then children, then
metadata, while in the emitted text the children literal precedes the
spliced components code. -/
def nodeTrace (bp : Option String) (t : LoaderTree) (root : Bool) (c : Nat) :
    Trace × Nat :=
  match t with
  | .mk app_page segment parallel_routes components global_metadata =>
    let pc := componentsTrace components c
    let pr := routesTrace bp parallel_routes pc.2
    let pm := metadataTrace bp app_page components.metadata
        (if root then some global_metadata else none) pr.2
    ({ code := "[" ++ stringifyJs segment ++ ", \x7b\n" ++ pr.1.code ++ "\x7d, \x7b\n" ++
         pc.1.code ++ pm.1.code ++ "\x7d]",
       events := pc.1.events ++ pr.1.events ++ pm.1.events,
       assets := pc.1.assets ++ pr.1.assets ++ pm.1.assets,
       idents := pc.1.idents ++ pr.1.idents ++ pm.1.idents,
       pages := pc.1.pages ++ pr.1.pages ++ pm.1.pages }, pm.2)

/-- Trace of the parallel-routes loop of `walk_tree`. -/
def routesTrace (bp : Option String) :
    List (String × LoaderTree) → Nat → Trace × Nat
  | [], c => ({}, c)
  | (key, t) :: rest, c =>
    let p1 := nodeTrace bp t false c
    let p2 := routesTrace bp rest p1.2
    ((Trace.emit (stringifyJs key ++ ": ")).seq (p1.1.seq ((Trace.emit ",\n").seq p2.1)), p2.2)

end

/-! ### The freshness invariant

Manifest keys inserted during a walk always use the current counter, so an
invariant bounding existing key indices by the counter makes every
`IndexMap::insert` an append and keeps keys pairwise distinct. -/

/-- `k` is a counter-indexed key of index `i`. -/
def keyInFamily (k : String) (i : Nat) : Prop :=
  k = componentKey i ∨ k = metadataKey i ∨ k = metadataAltKey i

/-- All manifest keys are pairwise distinct and every key is either the
reserved global-error name or a counter-indexed key below the counter. -/
def FreshAssets (assets : List (String × ModuleRef)) (c : Nat) : Prop :=
  (assets.map Prod.fst).Nodup ∧
    ∀ k ∈ assets.map Prod.fst, k = GLOBAL_ERROR ∨ ∃ i, i < c ∧ keyInFamily k i

/-- The builder invariant: its manifest is fresh for its counter. -/
def LoaderTreeBuilder.Fresh (b : LoaderTreeBuilder) : Prop :=
  FreshAssets b.inner_assets b.counter

theorem freshAssets_nil (c : Nat) : FreshAssets [] c := by
  constructor
  · simp
  · intro k hk
    simp at hk

theorem freshAssets_mono {a : List (String × ModuleRef)} {c c' : Nat}
    (h : FreshAssets a c) (hcc : c ≤ c') : FreshAssets a c' := by
  refine ⟨h.1, fun k hk => ?_⟩
  rcases h.2 k hk with hg | ⟨i, hi, hf⟩
  · exact Or.inl hg
  · exact Or.inr ⟨i, Nat.lt_of_lt_of_le hi hcc, hf⟩

theorem keyInFamily_ne {k k' : String} {i j : Nat} (hk : keyInFamily k i)
    (hk' : keyInFamily k' j) (hij : i ≠ j) : k ≠ k' := by
  rcases hk with h | h | h <;> rcases hk' with h' | h' | h' <;> subst h <;> subst h' <;>
    intro he
  · exact hij (componentKey_inj he)
  · exact componentKey_ne_metadataKey i j he
  · exact componentKey_ne_metadataAltKey i j he
  · exact componentKey_ne_metadataKey j i he.symm
  · exact hij (metadataKey_inj he)
  · exact metadataKey_ne_metadataAltKey i j he
  · exact componentKey_ne_metadataAltKey j i he.symm
  · exact metadataKey_ne_metadataAltKey j i he.symm
  · exact hij (metadataAltKey_inj he)

theorem keyInFamily_ne_global {k : String} {i : Nat} (hk : keyInFamily k i) :
    k ≠ GLOBAL_ERROR := by
  rcases hk with h | h | h <;> subst h <;> intro he
  · exact global_error_ne_componentKey i he.symm
  · exact global_error_ne_metadataKey i he.symm
  · exact global_error_ne_metadataAltKey i he.symm

theorem fresh_not_mem {a : List (String × ModuleRef)} {c : Nat} {k : String}
    (h : FreshAssets a c) (hk : keyInFamily k c) : k ∉ a.map Prod.fst := by
  intro hmem
  rcases h.2 k hmem with hg | ⟨i, hi, hf⟩
  · exact keyInFamily_ne_global hk hg
  · exact keyInFamily_ne hf hk (Nat.ne_of_lt hi) rfl

theorem freshAssets_append {a : List (String × ModuleRef)} {c : Nat} {k : String}
    {v : ModuleRef} (h : FreshAssets a c) (hk : keyInFamily k c) :
    FreshAssets (a ++ [(k, v)]) (c + 1) := by
  constructor
  · rw [List.map_append]
    apply List.Nodup.append h.1 (by simp)
    intro x hx hx'
    simp only [List.map_cons, List.map_nil, List.mem_singleton] at hx'
    subst hx'
    exact fresh_not_mem h hk hx
  · intro k' hk'
    rw [List.map_append, List.mem_append] at hk'
    rcases hk' with hmem | hmem
    · rcases h.2 k' hmem with hg | ⟨i, hi, hf⟩
      · exact Or.inl hg
      · exact Or.inr ⟨i, Nat.lt_succ_of_lt hi, hf⟩
    · simp only [List.map_cons, List.map_nil, List.mem_singleton] at hmem
      subst hmem
      exact Or.inr ⟨c, Nat.lt_succ_self c, hk⟩

theorem insertAsset_append {a : List (String × ModuleRef)} {k : String} {v : ModuleRef}
    (h : k ∉ a.map Prod.fst) : insertAsset a k v = a ++ [(k, v)] := by
  unfold insertAsset
  rw [if_neg]
  intro hany
  rcases List.any_eq_true.mp hany with ⟨p, hp, he⟩
  rw [decide_eq_true_eq] at he
  exact h (he ▸ List.mem_map_of_mem Prod.fst hp)

/-- Replay a trace (with its final counter) on top of a builder state. -/
def applyTrace (b : LoaderTreeBuilder) (tc : Trace × Nat) : LoaderTreeBuilder :=
  { inner_assets := b.inner_assets ++ tc.1.assets,
    counter := tc.2,
    imports := foldEvents b.imports tc.1.events,
    loader_tree_code := b.loader_tree_code ++ tc.1.code,
    pages := b.pages ++ tc.1.pages,
    base_path := b.base_path }


/-! ### Refinement: builder functions replay their traces -/

theorem applyTrace_nil (b : LoaderTreeBuilder) : applyTrace b ({}, b.counter) = b := by
  obtain ⟨ia, cnt, imp, code, pg, bp⟩ := b
  simp [applyTrace, foldEvents]

theorem applyTrace_seq (b : LoaderTreeBuilder) (tc1 tc2 : Trace × Nat) :
    applyTrace b (tc1.1.seq tc2.1, tc2.2) =
      applyTrace (applyTrace b tc1) tc2 := by
  simp [applyTrace, Trace.seq, foldEvents_append, String.append_assoc, List.append_assoc]

theorem applyTrace_counter (b : LoaderTreeBuilder) (tc : Trace × Nat) :
    (applyTrace b tc).counter = tc.2 := rfl

theorem applyTrace_base_path (b : LoaderTreeBuilder) (tc : Trace × Nat) :
    (applyTrace b tc).base_path = b.base_path := rfl

theorem applyTrace_emit (b : LoaderTreeBuilder) (s : String) :
    applyTrace b (Trace.emit s, b.counter) =
      { b with loader_tree_code := b.loader_tree_code ++ s } := by
  obtain ⟨ia, cnt, imp, code, pg, bp⟩ := b
  simp [applyTrace, Trace.emit, foldEvents]

theorem writeComponent_spec (b : LoaderTreeBuilder) (ty : ComponentType)
    (component : Option FsPath) (hb : b.Fresh) :
    writeComponent b ty component = applyTrace b (componentTrace ty component b.counter) ∧
      (writeComponent b ty component).Fresh := by
  cases component with
  | none =>
    exact ⟨(applyTrace_nil b).symm, hb⟩
  | some component =>
    have hnotmem : ("COMPONENT_" ++ Nat.repr b.counter) ∉ b.inner_assets.map Prod.fst :=
      fresh_not_mem hb (Or.inl rfl)
    have hins := insertAsset_append (a := b.inner_assets)
      (v := ModuleRef.processModule component) hnotmem
    have hfr : FreshAssets (b.inner_assets ++
        [("COMPONENT_" ++ Nat.repr b.counter, ModuleRef.processModule component)])
        (b.counter + 1) := freshAssets_append hb (Or.inl rfl)
    constructor
    · by_cases hty : ty = ComponentType.page <;>
        simp [writeComponent, componentTrace, applyTrace, LoaderTreeBuilder.uniqueNumber,
          hty, hins, foldEvents, componentKey, String.append_assoc]
    · show FreshAssets _ _
      by_cases hty : ty = ComponentType.page <;>
        simp [writeComponent, LoaderTreeBuilder.uniqueNumber, hty, hins, componentKey] <;>
        simpa using hfr

theorem spec_chain {b b1 b2 : LoaderTreeBuilder} {tc1 tc2 : Trace × Nat}
    (h1 : b1 = applyTrace b tc1) (h2 : b2 = applyTrace b1 tc2) :
    b2 = applyTrace b (tc1.1.seq tc2.1, tc2.2) := by
  rw [h2, h1, applyTrace_seq b tc1 tc2]

theorem freshAssets_snoc {a : List (String × ModuleRef)} {c : Nat} {k : String}
    {v : ModuleRef} {i : Nat} (h : FreshAssets a c) (hnot : k ∉ a.map Prod.fst)
    (hk : keyInFamily k i) (hi : i < c) : FreshAssets (a ++ [(k, v)]) c := by
  constructor
  · rw [List.map_append]
    refine List.Nodup.append h.1 (by simp) ?_
    intro x hx hx'
    simp only [List.map_cons, List.map_nil, List.mem_singleton] at hx'
    subst hx'
    exact hnot hx
  · intro k' hk'
    rw [List.map_append, List.mem_append] at hk'
    rcases hk' with hmem | hmem
    · exact h.2 k' hmem
    · simp only [List.map_cons, List.map_nil, List.mem_singleton] at hmem
      subst hmem
      exact Or.inr ⟨i, hi, hk⟩

theorem writeMetadataManifest_spec (b : LoaderTreeBuilder) (manifest : Option MetadataItem)
    (hb : b.Fresh) :
    writeMetadataManifest b manifest = applyTrace b (manifestTrace manifest, b.counter) ∧
      (writeMetadataManifest b manifest).Fresh := by
  cases manifest with
  | none => exact ⟨(applyTrace_nil b).symm, hb⟩
  | some m =>
    constructor
    · simp [writeMetadataManifest, manifestTrace, applyTrace, Trace.emit, foldEvents]
      apply String.ext
      simp [String.data_append]
    · exact hb

theorem writeStaticMetadataItem_spec (b : LoaderTreeBuilder) (app_page : AppPage)
    (name : String) (item : MetadataWithAltItem) (path : FsPath)
    (alt_path : Option FsPath) (hb : b.Fresh) :
    writeStaticMetadataItem b app_page name item path alt_path =
      applyTrace b (staticItemTrace b.base_path app_page name item path alt_path b.counter) ∧
      (writeStaticMetadataItem b app_page name item path alt_path).Fresh := by
  have hm1 : ("METADATA_" ++ Nat.repr b.counter) ∉ b.inner_assets.map Prod.fst :=
    fresh_not_mem hb (Or.inr (Or.inl rfl))
  have hins1 := insertAsset_append (a := b.inner_assets)
    (v := ModuleRef.structuredImage path) hm1
  have hfr1 : FreshAssets (b.inner_assets ++
      [("METADATA_" ++ Nat.repr b.counter, ModuleRef.structuredImage path)])
      (b.counter + 1) := freshAssets_append hb (Or.inr (Or.inl rfl))
  cases alt_path with
  | none =>
    constructor
    · by_cases hmem : helperImport ∈ b.imports <;>
        cases hnum : name == "twitter" || name == "openGraph" <;>
          simp [writeStaticMetadataItem, staticItemTrace, applyTrace,
            LoaderTreeBuilder.uniqueNumber, Trace.seq, Trace.emit, foldEvents, metadataKey,
            hins1, hmem, hnum, String.append_assoc] <;>
          (repeat' apply And.intro) <;>
          (apply String.ext; simp [String.data_append])
    · show FreshAssets _ _
      by_cases hmem : helperImport ∈ b.imports <;>
        cases hnum : name == "twitter" || name == "openGraph" <;>
          simp [writeStaticMetadataItem, LoaderTreeBuilder.uniqueNumber, hins1, hmem, hnum] <;>
          simpa using hfr1
  | some alt =>
    have hm2 : ("METADATA_ALT_" ++ Nat.repr b.counter) ∉
        (b.inner_assets ++
          [("METADATA_" ++ Nat.repr b.counter, ModuleRef.structuredImage path)]).map
          Prod.fst := by
      intro hmem
      rw [List.map_append, List.mem_append] at hmem
      rcases hmem with hmem | hmem
      · exact fresh_not_mem hb (Or.inr (Or.inr rfl)) hmem
      · simp only [List.map_cons, List.map_nil, List.mem_singleton] at hmem
        exact metadataKey_ne_metadataAltKey b.counter b.counter hmem.symm
    have hins2 := insertAsset_append
      (a := b.inner_assets ++
        [("METADATA_" ++ Nat.repr b.counter, ModuleRef.structuredImage path)])
      (v := ModuleRef.textContent alt) hm2
    have hfr2 : FreshAssets ((b.inner_assets ++
        [("METADATA_" ++ Nat.repr b.counter, ModuleRef.structuredImage path)]) ++
        [("METADATA_ALT_" ++ Nat.repr b.counter, ModuleRef.textContent alt)])
        (b.counter + 1) :=
      freshAssets_snoc hfr1 hm2 (Or.inr (Or.inr rfl)) (Nat.lt_succ_self b.counter)
    constructor
    · by_cases hmem : helperImport ∈ b.imports <;>
        cases hnum : name == "twitter" || name == "openGraph" <;>
          simp [writeStaticMetadataItem, staticItemTrace, applyTrace,
            LoaderTreeBuilder.uniqueNumber, Trace.seq, Trace.emit, foldEvents, metadataKey,
            metadataAltKey, hins1, hins2, hmem, hnum, String.append_assoc,
            List.append_assoc] <;>
          (repeat' apply And.intro) <;>
          (apply String.ext; simp [String.data_append])
    · show FreshAssets _ _
      by_cases hmem : helperImport ∈ b.imports <;>
        cases hnum : name == "twitter" || name == "openGraph" <;>
          simp [writeStaticMetadataItem, LoaderTreeBuilder.uniqueNumber, hins1, hins2,
            hmem, hnum] <;>
          simpa [List.append_assoc] using hfr2

theorem Trace.seq_assoc (t1 t2 t3 : Trace) :
    (t1.seq t2).seq t3 = t1.seq (t2.seq t3) := by
  simp [Trace.seq, String.append_assoc, List.append_assoc]

theorem writeMetadataItem_spec (b : LoaderTreeBuilder) (app_page : AppPage) (name : String)
    (item : MetadataWithAltItem) (hb : b.Fresh) :
    writeMetadataItem b app_page name item =
      applyTrace b (itemTrace b.base_path app_page name item b.counter) ∧
      (writeMetadataItem b app_page name item).Fresh := by
  cases item with
  | static path alt_path =>
    exact writeStaticMetadataItem_spec b app_page name
      (MetadataWithAltItem.static path alt_path) path alt_path hb
  | dynamic path =>
    have hm1 : ("METADATA_" ++ Nat.repr b.counter) ∉ b.inner_assets.map Prod.fst :=
      fresh_not_mem hb (Or.inr (Or.inl rfl))
    have hins1 := insertAsset_append (a := b.inner_assets)
      (v := ModuleRef.dynamicMetadata path name app_page) hm1
    have hfr1 : FreshAssets (b.inner_assets ++
        [("METADATA_" ++ Nat.repr b.counter, ModuleRef.dynamicMetadata path name app_page)])
        (b.counter + 1) := freshAssets_append hb (Or.inr (Or.inl rfl))
    constructor
    · simp [writeMetadataItem, itemTrace, applyTrace, LoaderTreeBuilder.uniqueNumber,
        foldEvents, metadataKey, hins1, String.append_assoc] <;>
      (repeat' apply And.intro) <;>
      (apply String.ext; simp [String.data_append])
    · show FreshAssets _ _
      simp [writeMetadataItem, LoaderTreeBuilder.uniqueNumber, hins1, metadataKey]
      simpa using hfr1

theorem writeItemsLoop_spec (app_page : AppPage) (name : String)
    (l : List MetadataWithAltItem) :
    ∀ (b : LoaderTreeBuilder), b.Fresh →
      writeItemsLoop app_page name l b =
        applyTrace b (itemsLoopTrace b.base_path app_page name l b.counter) ∧
        (writeItemsLoop app_page name l b).Fresh := by
  induction l with
  | nil =>
    intro b hb
    exact ⟨(applyTrace_nil b).symm, hb⟩
  | cons item rest ih =>
    intro b hb
    obtain ⟨h1, f1⟩ := writeMetadataItem_spec b app_page name item hb
    obtain ⟨h2, f2⟩ := ih (writeMetadataItem b app_page name item) f1
    have hbp : (writeMetadataItem b app_page name item).base_path = b.base_path := by
      rw [h1]; rfl
    have hc : (writeMetadataItem b app_page name item).counter =
        (itemTrace b.base_path app_page name item b.counter).2 := by
      rw [h1]; rfl
    rw [hbp, hc] at h2
    refine ⟨?_, f2⟩
    show writeItemsLoop app_page name rest (writeMetadataItem b app_page name item) = _
    simp only [itemsLoopTrace]
    exact spec_chain h1 h2

theorem writeMetadataItems_spec (b : LoaderTreeBuilder) (app_page : AppPage) (name : String)
    (it : List MetadataWithAltItem) (hb : b.Fresh) :
    writeMetadataItems b app_page name it =
      applyTrace b (itemsTrace b.base_path app_page name it b.counter) ∧
      (writeMetadataItems b app_page name it).Fresh := by
  by_cases hemp : it.isEmpty
  · constructor
    · simp [writeMetadataItems, itemsTrace, hemp, applyTrace_nil]
    · show FreshAssets _ _
      simp [writeMetadataItems, hemp]
      exact hb
  · have h0 : ({ b with loader_tree_code :=
        b.loader_tree_code ++ ("    " ++ (name ++ ": [\n")) } : LoaderTreeBuilder)
        = applyTrace b (Trace.emit ("    " ++ (name ++ ": [\n")), b.counter) :=
      (applyTrace_emit b _).symm
    have f0 : ({ b with loader_tree_code :=
        b.loader_tree_code ++ ("    " ++ (name ++ ": [\n")) } : LoaderTreeBuilder).Fresh := hb
    obtain ⟨hloop, f1⟩ := writeItemsLoop_spec app_page name it _ f0
    rw [show ({ b with loader_tree_code :=
        b.loader_tree_code ++ ("    " ++ (name ++ ": [\n")) } : LoaderTreeBuilder).base_path
      = b.base_path from rfl] at hloop
    rw [show ({ b with loader_tree_code :=
        b.loader_tree_code ++ ("    " ++ (name ++ ": [\n")) } : LoaderTreeBuilder).counter
      = b.counter from rfl] at hloop
    have h01 := spec_chain h0 hloop
    have h2 : ({ writeItemsLoop app_page name it { b with loader_tree_code :=
          b.loader_tree_code ++ ("    " ++ (name ++ ": [\n")) } with loader_tree_code :=
          (writeItemsLoop app_page name it { b with loader_tree_code :=
            b.loader_tree_code ++ ("    " ++ (name ++ ": [\n")) }).loader_tree_code ++
            "    ],\n" } : LoaderTreeBuilder)
        = applyTrace (writeItemsLoop app_page name it { b with loader_tree_code :=
            b.loader_tree_code ++ ("    " ++ (name ++ ": [\n")) })
          (Trace.emit "    ],\n",
            (writeItemsLoop app_page name it { b with loader_tree_code :=
              b.loader_tree_code ++ ("    " ++ (name ++ ": [\n")) }).counter) :=
      (applyTrace_emit _ _).symm
    rw [show (writeItemsLoop app_page name it { b with loader_tree_code :=
        b.loader_tree_code ++ ("    " ++ (name ++ ": [\n")) }).counter
      = (itemsLoopTrace b.base_path app_page name it b.counter).2 from by rw [h01]; rfl] at h2
    have h02 := spec_chain h01 h2
    have hunf : writeMetadataItems b app_page name it =
        ({ writeItemsLoop app_page name it { b with loader_tree_code :=
          b.loader_tree_code ++ ("    " ++ (name ++ ": [\n")) } with loader_tree_code :=
          (writeItemsLoop app_page name it { b with loader_tree_code :=
            b.loader_tree_code ++ ("    " ++ (name ++ ": [\n")) }).loader_tree_code ++
            "    ],\n" } : LoaderTreeBuilder) := by
      simp [writeMetadataItems, hemp, String.append_assoc]
    constructor
    · rw [hunf, h02]
      simp [itemsTrace, hemp, Trace.seq_assoc, String.append_assoc]
    · show (writeMetadataItems b app_page name it).Fresh
      rw [hunf]
      exact f1

theorem Trace.nil_seq (t : Trace) : Trace.seq {} t = t := by
  obtain ⟨c, e, a, i, p⟩ := t
  simp [Trace.seq]

theorem Trace.seq_nil (t : Trace) : Trace.seq t {} = t := by
  obtain ⟨c, e, a, i, p⟩ := t
  simp [Trace.seq]

theorem applyTrace_eq_base_path {b1 b : LoaderTreeBuilder} {tc : Trace × Nat}
    (h : b1 = applyTrace b tc) : b1.base_path = b.base_path := by
  rw [h]; rfl

theorem applyTrace_eq_counter {b1 b : LoaderTreeBuilder} {tc : Trace × Nat}
    (h : b1 = applyTrace b tc) : b1.counter = tc.2 := by
  rw [h]; rfl

theorem spec_start_emit (b : LoaderTreeBuilder) (s : String) :
    ({ b with loader_tree_code := b.loader_tree_code ++ s } : LoaderTreeBuilder)
      = applyTrace b (Trace.emit s, b.counter) := (applyTrace_emit b s).symm

theorem spec_chain_emit {b b1 : LoaderTreeBuilder} {tc1 : Trace × Nat}
    (h1 : b1 = applyTrace b tc1) (s : String) :
    ({ b1 with loader_tree_code := b1.loader_tree_code ++ s } : LoaderTreeBuilder)
      = applyTrace b (tc1.1.seq (Trace.emit s), tc1.2) := by
  have h2 : ({ b1 with loader_tree_code := b1.loader_tree_code ++ s } : LoaderTreeBuilder)
      = applyTrace b1 (Trace.emit s, b1.counter) := (applyTrace_emit b1 s).symm
  nth_rewrite 2 [show b1.counter = tc1.2 from by rw [h1]; rfl] at h2
  exact spec_chain h1 h2

theorem metadataTrace_unfold (bp : Option String) (ap : AppPage) (md : Metadata)
    (g : Option GlobalMetadata) (c : Nat) (hemp : ¬ md.is_empty = true) :
    metadataTrace bp ap md g c =
      ((Trace.emit "  metadata: \x7b").seq
        ((itemsTrace bp (md.base_page.getD ap) "icon"
      (match g.bind GlobalMetadata.favicon with
        | some favicon =>
          (match favicon with
            | MetadataItem.static path => MetadataWithAltItem.static path none
            | MetadataItem.dynamic path => MetadataWithAltItem.dynamic path) :: md.icon
        | none => md.icon) c).1.seq
          ((itemsTrace bp (md.base_page.getD ap) "apple" md.apple
      (itemsTrace bp (md.base_page.getD ap) "icon"
      (match g.bind GlobalMetadata.favicon with
        | some favicon =>
          (match favicon with
            | MetadataItem.static path => MetadataWithAltItem.static path none
            | MetadataItem.dynamic path => MetadataWithAltItem.dynamic path) :: md.icon
        | none => md.icon) c).2).1.seq
            ((itemsTrace bp (md.base_page.getD ap) "twitter" md.twitter
      (itemsTrace bp (md.base_page.getD ap) "apple" md.apple
      (itemsTrace bp (md.base_page.getD ap) "icon"
      (match g.bind GlobalMetadata.favicon with
        | some favicon =>
          (match favicon with
            | MetadataItem.static path => MetadataWithAltItem.static path none
            | MetadataItem.dynamic path => MetadataWithAltItem.dynamic path) :: md.icon
        | none => md.icon) c).2).2).1.seq
              ((itemsTrace bp (md.base_page.getD ap) "openGraph" md.open_graph
      (itemsTrace bp (md.base_page.getD ap) "twitter" md.twitter
      (itemsTrace bp (md.base_page.getD ap) "apple" md.apple
      (itemsTrace bp (md.base_page.getD ap) "icon"
      (match g.bind GlobalMetadata.favicon with
        | some favicon =>
          (match favicon with
            | MetadataItem.static path => MetadataWithAltItem.static path none
            | MetadataItem.dynamic path => MetadataWithAltItem.dynamic path) :: md.icon
        | none => md.icon) c).2).2).2).1.seq
                ((match g with
                  | some gm => manifestTrace gm.manifest
                  | none => ({} : Trace)).seq (Trace.emit "  \x7d,")))))),
        (itemsTrace bp (md.base_page.getD ap) "openGraph" md.open_graph
      (itemsTrace bp (md.base_page.getD ap) "twitter" md.twitter
      (itemsTrace bp (md.base_page.getD ap) "apple" md.apple
      (itemsTrace bp (md.base_page.getD ap) "icon"
      (match g.bind GlobalMetadata.favicon with
        | some favicon =>
          (match favicon with
            | MetadataItem.static path => MetadataWithAltItem.static path none
            | MetadataItem.dynamic path => MetadataWithAltItem.dynamic path) :: md.icon
        | none => md.icon) c).2).2).2).2) := by
  simp [metadataTrace, hemp]

theorem writeMetadata_spec (b : LoaderTreeBuilder) (app_page : AppPage)
    (metadata : Metadata) (global_metadata : Option GlobalMetadata) (hb : b.Fresh) :
    writeMetadata b app_page metadata global_metadata =
      applyTrace b (metadataTrace b.base_path app_page metadata global_metadata b.counter) ∧
      (writeMetadata b app_page metadata global_metadata).Fresh := by
  by_cases hemp : metadata.is_empty
  · constructor
    · simp [writeMetadata, metadataTrace, hemp, applyTrace_nil]
    · show FreshAssets _ _
      simp [writeMetadata, hemp]
      exact hb
  · have h0 := spec_start_emit b "  metadata: \x7b"
    have f0 : ({ b with loader_tree_code :=
        b.loader_tree_code ++ "  metadata: \x7b" } : LoaderTreeBuilder).Fresh := hb
    obtain ⟨h1, f1⟩ := writeMetadataItems_spec _ (metadata.base_page.getD app_page) "icon"
      (match global_metadata.bind GlobalMetadata.favicon with
        | some favicon =>
          (match favicon with
            | MetadataItem.static path => MetadataWithAltItem.static path none
            | MetadataItem.dynamic path => MetadataWithAltItem.dynamic path) :: metadata.icon
        | none => metadata.icon) f0
    rw [applyTrace_eq_base_path h0, applyTrace_eq_counter h0] at h1
    have h01 := spec_chain h0 h1
    obtain ⟨h2, f2⟩ := writeMetadataItems_spec _ (metadata.base_page.getD app_page) "apple"
      metadata.apple f1
    rw [applyTrace_eq_base_path h01, applyTrace_eq_counter h01] at h2
    have h02 := spec_chain h01 h2
    obtain ⟨h3, f3⟩ := writeMetadataItems_spec _ (metadata.base_page.getD app_page) "twitter"
      metadata.twitter f2
    rw [applyTrace_eq_base_path h02, applyTrace_eq_counter h02] at h3
    have h03 := spec_chain h02 h3
    obtain ⟨h4, f4⟩ := writeMetadataItems_spec _ (metadata.base_page.getD app_page) "openGraph"
      metadata.open_graph f3
    rw [applyTrace_eq_base_path h03, applyTrace_eq_counter h03] at h4
    have h04 := spec_chain h03 h4
    cases global_metadata with
    | none =>
      have h06 := spec_chain_emit h04 "  \x7d,"
      constructor
      · simp only [writeMetadata]
        rw [if_neg hemp, metadataTrace_unfold b.base_path app_page metadata none b.counter hemp]
        refine h06.trans ?_
        dsimp only
        simp only [Trace.seq_assoc, Trace.nil_seq, Trace.seq_nil]
      · show (writeMetadata b app_page metadata none).Fresh
        simp only [writeMetadata]
        rw [if_neg hemp]
        exact f4
    | some gm =>
      obtain ⟨h5, f5⟩ := writeMetadataManifest_spec _ gm.manifest f4
      rw [applyTrace_eq_counter h04] at h5
      have h05 := spec_chain h04 h5
      have h06 := spec_chain_emit h05 "  \x7d,"
      constructor
      · simp only [writeMetadata]
        rw [if_neg hemp,
          metadataTrace_unfold b.base_path app_page metadata (some gm) b.counter hemp]
        refine h06.trans ?_
        dsimp only
        simp only [Trace.seq_assoc, Trace.nil_seq, Trace.seq_nil]
      · show (writeMetadata b app_page metadata (some gm)).Fresh
        simp only [writeMetadata]
        rw [if_neg hemp]
        exact f5

/-- Replace the program text of a trace, keeping its other effects. -/
def Trace.withCode (t : Trace) (s : String) : Trace :=
  { t with code := s }

theorem spec_emit_eq (b : LoaderTreeBuilder) {temp s : String}
    (h : temp = b.loader_tree_code ++ s) :
    ({ b with loader_tree_code := temp } : LoaderTreeBuilder)
      = applyTrace b (Trace.emit s, b.counter) := by
  rw [h]
  exact spec_start_emit b s

theorem spec_restore (b : LoaderTreeBuilder) {b1 : LoaderTreeBuilder}
    {tc : Trace × Nat} {temp s : String}
    (h1 : b1 = applyTrace { b with loader_tree_code := "" } tc)
    (htemp : temp = b.loader_tree_code ++ s) :
    ({ b1 with loader_tree_code := temp } : LoaderTreeBuilder)
      = applyTrace b (tc.1.withCode s, tc.2) := by
  rw [h1, htemp]
  obtain ⟨ia, cnt, imp, code, pg, bp⟩ := b
  simp [applyTrace, Trace.withCode]

theorem writeComponents_spec (b : LoaderTreeBuilder) (comps : Components) (hb : b.Fresh) :
    writeComponents b comps = applyTrace b (componentsTrace comps b.counter) ∧
      (writeComponents b comps).Fresh := by
  show writeComponent (writeComponent (writeComponent (writeComponent (writeComponent
      (writeComponent (writeComponent b ComponentType.layout comps.layout)
        ComponentType.page comps.page) ComponentType.defaultPage comps.default)
      ComponentType.error comps.error) ComponentType.loading comps.loading)
      ComponentType.template comps.template) ComponentType.notFound comps.not_found
      = applyTrace b (componentsTrace comps b.counter) ∧
      (writeComponent (writeComponent (writeComponent (writeComponent (writeComponent
        (writeComponent (writeComponent b ComponentType.layout comps.layout)
          ComponentType.page comps.page) ComponentType.defaultPage comps.default)
        ComponentType.error comps.error) ComponentType.loading comps.loading)
        ComponentType.template comps.template) ComponentType.notFound comps.not_found).Fresh
  obtain ⟨h1, f1⟩ := writeComponent_spec b ComponentType.layout comps.layout hb
  obtain ⟨h2, f2⟩ := writeComponent_spec _ ComponentType.page comps.page f1
  rw [applyTrace_eq_counter h1] at h2
  have h01 := spec_chain h1 h2
  obtain ⟨h3, f3⟩ := writeComponent_spec _ ComponentType.defaultPage comps.default f2
  rw [applyTrace_eq_counter h01] at h3
  have h02 := spec_chain h01 h3
  obtain ⟨h4, f4⟩ := writeComponent_spec _ ComponentType.error comps.error f3
  rw [applyTrace_eq_counter h02] at h4
  have h03 := spec_chain h02 h4
  obtain ⟨h5, f5⟩ := writeComponent_spec _ ComponentType.loading comps.loading f4
  rw [applyTrace_eq_counter h03] at h5
  have h04 := spec_chain h03 h5
  obtain ⟨h6, f6⟩ := writeComponent_spec _ ComponentType.template comps.template f5
  rw [applyTrace_eq_counter h04] at h6
  have h05 := spec_chain h04 h6
  obtain ⟨h7, f7⟩ := writeComponent_spec _ ComponentType.notFound comps.not_found f6
  rw [applyTrace_eq_counter h05] at h7
  have h06 := spec_chain h05 h7
  refine ⟨h06.trans ?_, f7⟩
  dsimp only
  simp only [componentsTrace, Trace.seq_assoc]
mutual

theorem walkTree_spec :
    ∀ (t : LoaderTree) (b : LoaderTreeBuilder) (root : Bool), b.Fresh →
      walkTree b t root = applyTrace b (nodeTrace b.base_path t root b.counter) ∧
        (walkTree b t root).Fresh
  | .mk app_page segment parallel_routes components global_metadata, b, root, hb => by
    have hbt : ({ ({ b with loader_tree_code := b.loader_tree_code ++ "[" ++ stringifyJs segment ++ ", \x7b\n" } : LoaderTreeBuilder) with loader_tree_code := "" } : LoaderTreeBuilder).Fresh := hb
    obtain ⟨hc, fc⟩ := writeComponents_spec _ components hbt
    have htemp : ({ b with loader_tree_code := b.loader_tree_code ++ "[" ++ stringifyJs segment ++ ", \x7b\n" } : LoaderTreeBuilder).loader_tree_code
        = b.loader_tree_code ++ ("[" ++ (stringifyJs segment ++ ", \x7b\n")) := by
      apply String.ext
      simp [String.data_append]
    have hrest := spec_restore b hc htemp
    have fr : ({ writeComponents ({ ({ b with loader_tree_code := b.loader_tree_code ++ "[" ++ stringifyJs segment ++ ", \x7b\n" } : LoaderTreeBuilder) with loader_tree_code := "" } : LoaderTreeBuilder) components with loader_tree_code := ({ b with loader_tree_code := b.loader_tree_code ++ "[" ++ stringifyJs segment ++ ", \x7b\n" } : LoaderTreeBuilder).loader_tree_code } : LoaderTreeBuilder).Fresh := fc
    obtain ⟨hw, fw⟩ := walkRoutes_spec parallel_routes _ fr
    rw [applyTrace_eq_base_path hrest, applyTrace_eq_counter hrest] at hw
    have hw2 := spec_chain hrest hw
    have h2 := spec_chain_emit hw2 "\x7d, \x7b\n"
    have h3 := spec_chain_emit h2 ((writeComponents ({ ({ b with loader_tree_code := b.loader_tree_code ++ "[" ++ stringifyJs segment ++ ", \x7b\n" } : LoaderTreeBuilder) with loader_tree_code := "" } : LoaderTreeBuilder) components).loader_tree_code)
    have hcc : (writeComponents ({ ({ b with loader_tree_code := b.loader_tree_code ++ "[" ++ stringifyJs segment ++ ", \x7b\n" } : LoaderTreeBuilder) with loader_tree_code := "" } : LoaderTreeBuilder) components).loader_tree_code
        = (componentsTrace components ({ ({ b with loader_tree_code := b.loader_tree_code ++ "[" ++ stringifyJs segment ++ ", \x7b\n" } : LoaderTreeBuilder) with loader_tree_code := "" } : LoaderTreeBuilder).counter).1.code := by
      rw [hc]
      rfl
    nth_rewrite 2 [hcc] at h3
    have f3 : ({ ({ walkRoutes ({ writeComponents ({ ({ b with loader_tree_code := b.loader_tree_code ++ "[" ++ stringifyJs segment ++ ", \x7b\n" } : LoaderTreeBuilder) with loader_tree_code := "" } : LoaderTreeBuilder) components with loader_tree_code := ({ b with loader_tree_code := b.loader_tree_code ++ "[" ++ stringifyJs segment ++ ", \x7b\n" } : LoaderTreeBuilder).loader_tree_code } : LoaderTreeBuilder) parallel_routes with loader_tree_code := (walkRoutes ({ writeComponents ({ ({ b with loader_tree_code := b.loader_tree_code ++ "[" ++ stringifyJs segment ++ ", \x7b\n" } : LoaderTreeBuilder) with loader_tree_code := "" } : LoaderTreeBuilder) components with loader_tree_code := ({ b with loader_tree_code := b.loader_tree_code ++ "[" ++ stringifyJs segment ++ ", \x7b\n" } : LoaderTreeBuilder).loader_tree_code } : LoaderTreeBuilder) parallel_routes).loader_tree_code ++ "\x7d, \x7b\n" } : LoaderTreeBuilder) with loader_tree_code :=
        ({ walkRoutes ({ writeComponents ({ ({ b with loader_tree_code := b.loader_tree_code ++ "[" ++ stringifyJs segment ++ ", \x7b\n" } : LoaderTreeBuilder) with loader_tree_code := "" } : LoaderTreeBuilder) components with loader_tree_code := ({ b with loader_tree_code := b.loader_tree_code ++ "[" ++ stringifyJs segment ++ ", \x7b\n" } : LoaderTreeBuilder).loader_tree_code } : LoaderTreeBuilder) parallel_routes with loader_tree_code := (walkRoutes ({ writeComponents ({ ({ b with loader_tree_code := b.loader_tree_code ++ "[" ++ stringifyJs segment ++ ", \x7b\n" } : LoaderTreeBuilder) with loader_tree_code := "" } : LoaderTreeBuilder) components with loader_tree_code := ({ b with loader_tree_code := b.loader_tree_code ++ "[" ++ stringifyJs segment ++ ", \x7b\n" } : LoaderTreeBuilder).loader_tree_code } : LoaderTreeBuilder) parallel_routes).loader_tree_code ++ "\x7d, \x7b\n" } : LoaderTreeBuilder).loader_tree_code ++ (writeComponents ({ ({ b with loader_tree_code := b.loader_tree_code ++ "[" ++ stringifyJs segment ++ ", \x7b\n" } : LoaderTreeBuilder) with loader_tree_code := "" } : LoaderTreeBuilder) components).loader_tree_code }
          : LoaderTreeBuilder).Fresh := fw
    obtain ⟨hm, fm⟩ := writeMetadata_spec _ app_page components.metadata
      (if root then some global_metadata else none) f3
    rw [applyTrace_eq_base_path h3, applyTrace_eq_counter h3] at hm
    have h4 := spec_chain h3 hm
    have h5 := spec_chain_emit h4 "\x7d]"
    constructor
    · simp only [walkTree]
      refine h5.trans ?_
      simp only [nodeTrace]
      try dsimp only
      simp [Trace.seq, Trace.emit, Trace.withCode, String.append_assoc,
        List.append_assoc] <;>
      (repeat' apply And.intro) <;>
      (apply String.ext; simp [String.data_append])
    · show (walkTree b (LoaderTree.mk app_page segment parallel_routes components
        global_metadata) root).Fresh
      simp only [walkTree]
      exact fm

theorem walkRoutes_spec :
    ∀ (l : List (String × LoaderTree)) (b : LoaderTreeBuilder), b.Fresh →
      walkRoutes b l = applyTrace b (routesTrace b.base_path l b.counter) ∧
        (walkRoutes b l).Fresh
  | [], b, hb => by
    constructor
    · simp only [walkRoutes, routesTrace]
      exact (applyTrace_nil b).symm
    · simp only [walkRoutes]
      exact hb
  | (key, t) :: rest, b, hb => by
    have h0 := spec_emit_eq b (show b.loader_tree_code ++ stringifyJs key ++ ": "
        = b.loader_tree_code ++ (stringifyJs key ++ ": ") from by
      apply String.ext
      simp [String.data_append])
    have f0 : ({ b with loader_tree_code := b.loader_tree_code ++ stringifyJs key ++ ": " } : LoaderTreeBuilder).Fresh := hb
    obtain ⟨h1, f1⟩ := walkTree_spec t _ false f0
    rw [applyTrace_eq_base_path h0, applyTrace_eq_counter h0] at h1
    have h01 := spec_chain h0 h1
    have h2 := spec_chain_emit h01 ",\n"
    have f2 : ({ walkTree ({ b with loader_tree_code := b.loader_tree_code ++ stringifyJs key ++ ": " } : LoaderTreeBuilder) t false with loader_tree_code :=
        (walkTree ({ b with loader_tree_code := b.loader_tree_code ++ stringifyJs key ++ ": " } : LoaderTreeBuilder) t false).loader_tree_code ++ ",\n" } : LoaderTreeBuilder).Fresh := f1
    obtain ⟨h3, f3⟩ := walkRoutes_spec rest _ f2
    rw [applyTrace_eq_base_path h2, applyTrace_eq_counter h2] at h3
    have h02 := spec_chain h2 h3
    constructor
    · simp only [walkRoutes]
      refine h02.trans ?_
      simp only [routesTrace]
      try dsimp only
      simp [Trace.seq, Trace.emit, String.append_assoc, List.append_assoc] <;>
      (repeat' apply And.intro) <;>
      (apply String.ext; simp [String.data_append])
    · show (walkRoutes b ((key, t) :: rest)).Fresh
      simp only [walkRoutes]
      exact f3

end

/-! ### Build-level refinement and collected pages -/

theorem insertAsset_nil (k : String) (v : ModuleRef) :
    insertAsset [] k v = [(k, v)] := rfl

theorem build_spec (t : LoaderTree) (bp : Option String) :
    LoaderTreeModule.build t bp =
      { imports := foldEvents [] (nodeTrace bp t true 0).1.events,
        loader_tree_code := "" ++ (nodeTrace bp t true 0).1.code,
        inner_assets :=
          (match t.components.global_error with
            | some ge => [(GLOBAL_ERROR, ModuleRef.processModule ge)]
            | none => []) ++ (nodeTrace bp t true 0).1.assets,
        pages := (nodeTrace bp t true 0).1.pages } ∧
      ((LoaderTreeModule.build t bp).inner_assets.map Prod.fst).Nodup := by
  cases hge : t.components.global_error with
  | none =>
    have hfr : (LoaderTreeBuilder.new bp).Fresh := freshAssets_nil 0
    obtain ⟨hw, fw⟩ := walkTree_spec t (LoaderTreeBuilder.new bp) true hfr
    constructor
    · simp only [LoaderTreeModule.build, LoaderTreeBuilder.build, hge]
      rw [hw]
      simp [applyTrace, LoaderTreeBuilder.new]
    · simp only [LoaderTreeModule.build, LoaderTreeBuilder.build, hge]
      exact fw.1
  | some ge =>
    have hfr : ({ LoaderTreeBuilder.new bp with inner_assets :=
        [(GLOBAL_ERROR, ModuleRef.processModule ge)] } : LoaderTreeBuilder).Fresh := by
      constructor
      · simp
      · intro k hk
        simp only [List.map_cons, List.map_nil, List.mem_singleton] at hk
        exact Or.inl hk
    obtain ⟨hw, fw⟩ := walkTree_spec t _ true hfr
    constructor
    · simp only [LoaderTreeModule.build, LoaderTreeBuilder.build, hge, insertAsset_nil]
      rw [show (LoaderTreeBuilder.new bp).inner_assets = [] from rfl]
      rw [insertAsset_nil]
      rw [hw]
      simp [applyTrace, LoaderTreeBuilder.new]
    · simp only [LoaderTreeModule.build, LoaderTreeBuilder.build, hge]
      rw [show insertAsset (LoaderTreeBuilder.new bp).inner_assets GLOBAL_ERROR
        (ModuleRef.processModule ge) = [(GLOBAL_ERROR, ModuleRef.processModule ge)] from rfl]
      exact fw.1

mutual

/-- The page files of a tree in first-encountered traversal order: a node's
own page slot, then its parallel children in stored order.  Follows the
spec's description of page collection. -/
def treePages : LoaderTree → List FsPath
  | .mk _ _ parallel_routes components _ =>
    components.page.toList ++ routesPages parallel_routes

/-- Pages of a list of parallel routes, in order. -/
def routesPages : List (String × LoaderTree) → List FsPath
  | [] => []
  | (_, t) :: rest => treePages t ++ routesPages rest

end

theorem componentTrace_pages (ty : ComponentType) (comp : Option FsPath) (c : Nat) :
    (componentTrace ty comp c).1.pages =
      if ty = ComponentType.page then comp.toList else [] := by
  cases comp with
  | none => cases hty : decide (ty = ComponentType.page) <;>
      simp_all [componentTrace]
  | some p => by_cases hty : ty = ComponentType.page <;>
      simp [componentTrace, hty]

theorem componentsTrace_pages (comps : Components) (c : Nat) :
    (componentsTrace comps c).1.pages = comps.page.toList := by
  simp [componentsTrace, Trace.seq, componentTrace_pages]

theorem itemTrace_pages (bp : Option String) (ap : AppPage) (name : String)
    (item : MetadataWithAltItem) (c : Nat) : (itemTrace bp ap name item c).1.pages = [] := by
  cases item with
  | static path alt_path =>
    cases alt_path <;> simp [itemTrace, staticItemTrace]
  | dynamic path => simp [itemTrace]

theorem itemsLoopTrace_pages (bp : Option String) (ap : AppPage) (name : String) :
    ∀ (l : List MetadataWithAltItem) (c : Nat), (itemsLoopTrace bp ap name l c).1.pages = [] := by
  intro l
  induction l with
  | nil => intro c; rfl
  | cons item rest ih =>
    intro c
    simp [itemsLoopTrace, Trace.seq, itemTrace_pages, ih]

theorem itemsTrace_pages (bp : Option String) (ap : AppPage) (name : String)
    (l : List MetadataWithAltItem) (c : Nat) : (itemsTrace bp ap name l c).1.pages = [] := by
  by_cases hemp : l.isEmpty <;>
    simp [itemsTrace, hemp, Trace.seq, Trace.emit, itemsLoopTrace_pages]

theorem manifestTrace_pages (m : Option MetadataItem) : (manifestTrace m).pages = [] := by
  cases m <;> simp [manifestTrace, Trace.emit]

theorem metadataTrace_pages (bp : Option String) (ap : AppPage) (md : Metadata)
    (g : Option GlobalMetadata) (c : Nat) : (metadataTrace bp ap md g c).1.pages = [] := by
  by_cases hemp : md.is_empty
  · simp [metadataTrace, hemp]
  · rw [metadataTrace_unfold bp ap md g c hemp]
    cases g <;>
      simp [Trace.seq, Trace.emit, itemsTrace_pages, manifestTrace_pages]

mutual

theorem nodeTrace_pages :
    ∀ (bp : Option String) (t : LoaderTree) (root : Bool) (c : Nat),
      (nodeTrace bp t root c).1.pages = treePages t
  | bp, .mk app_page segment parallel_routes components gm, root, c => by
    simp only [nodeTrace, treePages]
    rw [componentsTrace_pages, metadataTrace_pages,
      routesTrace_pages bp parallel_routes (componentsTrace components c).2]
    simp

theorem routesTrace_pages :
    ∀ (bp : Option String) (l : List (String × LoaderTree)) (c : Nat),
      (routesTrace bp l c).1.pages = routesPages l
  | bp, [], c => rfl
  | bp, (key, t) :: rest, c => by
    simp only [routesTrace, routesPages, Trace.seq, Trace.emit]
    rw [nodeTrace_pages bp t false c,
      routesTrace_pages bp rest (nodeTrace bp t false c).2]
    simp

end

/-! ### Claim theorems -/

/-- C2: for every input tree the produced pages list has exactly one entry
per page slot anywhere in the tree, in first-encountered traversal order
(a node's own page before its children's, children in insertion order); in
the spec's example shape, a root page `P` precedes the nested page `Q`. -/
theorem c2_page_collection_complete :
    (∀ (t : LoaderTree) (bp : Option String),
      (LoaderTreeModule.build t bp).pages = treePages t) ∧
    (LoaderTreeModule.build
        (LoaderTree.mk "/" ""
          [("children", LoaderTree.mk "/q" "child" [] { page := some "Q" } {})]
          { layout := some "L", page := some "P" } {}) none).pages = ["P", "Q"] := by
  constructor
  · intro t bp
    rw [(build_spec t bp).1]
    exact nodeTrace_pages bp t true 0
  · rfl

/-- C1 counterexample input: a node carrying only a not-found component. -/
def c1tree : LoaderTree := LoaderTree.mk "/" "" [] { not_found := some "NF" } {}

set_option maxRecDepth 4096 in
/-- C1, as stated, is false: the emitted slot key for the not-found
component is spelled `"not-found"`, and the spelling `notFound` required by
the claim never occurs in the emitted program text. -/
theorem c1_counterexample :
    ("\"not-found\":".data <:+:
      (LoaderTreeModule.build c1tree none).loader_tree_code.data) ∧
    ¬ ("notFound".data <:+:
      (LoaderTreeModule.build c1tree none).loader_tree_code.data) := by
  constructor
  · decide
  · decide

theorem componentTrace_code_some (ty : ComponentType) (f : FsPath) (c : Nat) :
    (componentTrace ty (some f) c).1.code =
      "  " ++ stringifyJs ty.name ++ ": [() => " ++ mangle (ty.name ++ " #" ++ Nat.repr c) ++
        ", " ++ stringifyJs f ++ "],\n" := by
  simp [componentTrace, modulePath, String.append_assoc]

theorem componentTrace_code_none (ty : ComponentType) (c : Nat) :
    (componentTrace ty none c).1.code = "" := rfl

theorem componentsTrace_code (comps : Components) (c : Nat) :
    (componentsTrace comps c).1.code =
      (componentTrace ComponentType.layout comps.layout c).1.code ++
      (componentTrace ComponentType.page comps.page (componentTrace ComponentType.layout comps.layout c).2).1.code ++
      (componentTrace ComponentType.defaultPage comps.default (componentTrace ComponentType.page comps.page (componentTrace ComponentType.layout comps.layout c).2).2).1.code ++
      (componentTrace ComponentType.error comps.error (componentTrace ComponentType.defaultPage comps.default (componentTrace ComponentType.page comps.page (componentTrace ComponentType.layout comps.layout c).2).2).2).1.code ++
      (componentTrace ComponentType.loading comps.loading (componentTrace ComponentType.error comps.error (componentTrace ComponentType.defaultPage comps.default (componentTrace ComponentType.page comps.page (componentTrace ComponentType.layout comps.layout c).2).2).2).2).1.code ++
      (componentTrace ComponentType.template comps.template (componentTrace ComponentType.loading comps.loading (componentTrace ComponentType.error comps.error (componentTrace ComponentType.defaultPage comps.default (componentTrace ComponentType.page comps.page (componentTrace ComponentType.layout comps.layout c).2).2).2).2).2).1.code ++
      (componentTrace ComponentType.notFound comps.not_found (componentTrace ComponentType.template comps.template (componentTrace ComponentType.loading comps.loading (componentTrace ComponentType.error comps.error (componentTrace ComponentType.defaultPage comps.default (componentTrace ComponentType.page comps.page (componentTrace ComponentType.layout comps.layout c).2).2).2).2).2).2).1.code := by
  simp [componentsTrace, Trace.seq, String.append_assoc]

theorem nodeTrace_code (bp : Option String) (t : LoaderTree) (root : Bool) (c : Nat) :
    (nodeTrace bp t root c).1.code =
      "[" ++ stringifyJs t.segment ++ ", \x7b\n" ++
      (routesTrace bp t.parallel_routes (componentsTrace t.components c).2).1.code ++
      "\x7d, \x7b\n" ++
      (componentsTrace t.components c).1.code ++
      (metadataTrace bp t.page t.components.metadata
        (if root then some t.global_metadata else none)
        (routesTrace bp t.parallel_routes (componentsTrace t.components c).2).2).1.code ++
      "\x7d]" := by
  cases t with
  | mk app_page segment parallel_routes components gm =>
    simp only [nodeTrace, LoaderTree.segment, LoaderTree.parallel_routes,
      LoaderTree.components, LoaderTree.page, LoaderTree.global_metadata]

theorem routesTrace_code_nil (bp : Option String) (c : Nat) :
    (routesTrace bp [] c).1.code = "" := rfl

theorem routesTrace_code_cons (bp : Option String) (key : String) (t : LoaderTree)
    (rest : List (String × LoaderTree)) (c : Nat) :
    (routesTrace bp ((key, t) :: rest) c).1.code =
      stringifyJs key ++ ": " ++ (nodeTrace bp t false c).1.code ++ ",\n" ++
        (routesTrace bp rest (nodeTrace bp t false c).2).1.code := by
  simp only [routesTrace, Trace.seq, Trace.emit]
  apply String.ext
  simp [String.data_append]

theorem nodeTrace_code_empty (bp : Option String) (p : AppPage) (seg : String)
    (gm : GlobalMetadata) (root : Bool) (c : Nat) :
    (nodeTrace bp (LoaderTree.mk p seg [] {} gm) root c).1.code =
      "[" ++ stringifyJs seg ++ ", \x7b\n\x7d, \x7b\n\x7d]" := by
  rw [nodeTrace_code]
  cases root <;>
    simp [componentsTrace, componentTrace, routesTrace, metadataTrace, Metadata.is_empty,
      Trace.seq, LoaderTree.segment, LoaderTree.parallel_routes, LoaderTree.components,
      LoaderTree.page, LoaderTree.global_metadata] <;>
  (apply String.ext; simp [String.data_append])

/-- C1 (amended): for every node the emitted text is the literal
`[<stringified segment>, \x7b <children in insertion order> \x7d,
\x7b <slot entries in the fixed order layout, page, defaultPage, error,
loading, template, not-found, then the optional metadata object> \x7d]`;
the not-found slot key is spelled `"not-found"` (not `notFound`); a node
with no children and no components still emits the literal with empty
objects. -/
theorem c1_loader_tree_literal_shape :
    (∀ (t : LoaderTree) (b : LoaderTreeBuilder) (root : Bool), b.Fresh →
      (walkTree b t root).loader_tree_code =
        b.loader_tree_code ++ (nodeTrace b.base_path t root b.counter).1.code) ∧
    (∀ (bp : Option String) (t : LoaderTree) (root : Bool) (c : Nat),
      (nodeTrace bp t root c).1.code =
        "[" ++ stringifyJs t.segment ++ ", \x7b\n" ++
        (routesTrace bp t.parallel_routes (componentsTrace t.components c).2).1.code ++
        "\x7d, \x7b\n" ++
        (componentsTrace t.components c).1.code ++
        (metadataTrace bp t.page t.components.metadata
          (if root then some t.global_metadata else none)
          (routesTrace bp t.parallel_routes (componentsTrace t.components c).2).2).1.code ++
        "\x7d]") ∧
    (∀ (bp : Option String) (key : String) (t : LoaderTree)
        (rest : List (String × LoaderTree)) (c : Nat),
      (routesTrace bp ((key, t) :: rest) c).1.code =
        stringifyJs key ++ ": " ++ (nodeTrace bp t false c).1.code ++ ",\n" ++
          (routesTrace bp rest (nodeTrace bp t false c).2).1.code) ∧
    (∀ (comps : Components) (c : Nat),
      (componentsTrace comps c).1.code =
        (componentTrace ComponentType.layout comps.layout c).1.code ++
      (componentTrace ComponentType.page comps.page (componentTrace ComponentType.layout comps.layout c).2).1.code ++
      (componentTrace ComponentType.defaultPage comps.default (componentTrace ComponentType.page comps.page (componentTrace ComponentType.layout comps.layout c).2).2).1.code ++
      (componentTrace ComponentType.error comps.error (componentTrace ComponentType.defaultPage comps.default (componentTrace ComponentType.page comps.page (componentTrace ComponentType.layout comps.layout c).2).2).2).1.code ++
      (componentTrace ComponentType.loading comps.loading (componentTrace ComponentType.error comps.error (componentTrace ComponentType.defaultPage comps.default (componentTrace ComponentType.page comps.page (componentTrace ComponentType.layout comps.layout c).2).2).2).2).1.code ++
      (componentTrace ComponentType.template comps.template (componentTrace ComponentType.loading comps.loading (componentTrace ComponentType.error comps.error (componentTrace ComponentType.defaultPage comps.default (componentTrace ComponentType.page comps.page (componentTrace ComponentType.layout comps.layout c).2).2).2).2).2).1.code ++
      (componentTrace ComponentType.notFound comps.not_found (componentTrace ComponentType.template comps.template (componentTrace ComponentType.loading comps.loading (componentTrace ComponentType.error comps.error (componentTrace ComponentType.defaultPage comps.default (componentTrace ComponentType.page comps.page (componentTrace ComponentType.layout comps.layout c).2).2).2).2).2).2).1.code) ∧
    (∀ (ty : ComponentType) (f : FsPath) (c : Nat),
      (componentTrace ty (some f) c).1.code =
        "  " ++ stringifyJs ty.name ++ ": [() => " ++
          mangle (ty.name ++ " #" ++ Nat.repr c) ++ ", " ++ stringifyJs f ++ "],\n") ∧
    ComponentType.layout.name = "layout" ∧ ComponentType.page.name = "page" ∧
    ComponentType.defaultPage.name = "defaultPage" ∧ ComponentType.error.name = "error" ∧
    ComponentType.loading.name = "loading" ∧ ComponentType.template.name = "template" ∧
    ComponentType.notFound.name = "not-found" ∧
    (∀ (bp : Option String) (p : AppPage) (seg : String) (gm : GlobalMetadata)
        (root : Bool) (c : Nat),
      (nodeTrace bp (LoaderTree.mk p seg [] {} gm) root c).1.code =
        "[" ++ stringifyJs seg ++ ", \x7b\n\x7d, \x7b\n\x7d]") := by
  refine ⟨?_, nodeTrace_code, routesTrace_code_cons, componentsTrace_code,
    componentTrace_code_some, rfl, rfl, rfl, rfl, rfl, rfl, rfl, nodeTrace_code_empty⟩
  intro t b root hb
  rw [(walkTree_spec t b root hb).1]
  rfl

/-- C1 witness: the refinement instance at a concrete builder and tree. -/
theorem c1_loader_tree_literal_shape_witness :
    (walkTree (LoaderTreeBuilder.new none) c1tree true).loader_tree_code =
      "" ++ (nodeTrace none c1tree true 0).1.code := by
  exact c1_loader_tree_literal_shape.1 c1tree (LoaderTreeBuilder.new none) true
    (freshAssets_nil 0)

/-- C3 counterexample input: a root with its own layout and one child with
a page. -/
def c3tree : LoaderTree :=
  LoaderTree.mk "/" ""
    [("children", LoaderTree.mk "/q" "child" [] { page := some "Q" } {})]
    { layout := some "L" } {}

set_option maxRecDepth 4096 in
/-- C3, as stated, is false: compiling `c3tree` allocates counter 0 and the
first import and first manifest entry to the root's own layout component,
and only afterwards counter 1 and the second entries to the nested child's
page — the children's allocations, imports and manifest insertions come
after the node's own components, not before. -/
theorem c3_counterexample :
    (LoaderTreeModule.build c3tree none).imports =
      ["import * as " ++ mangle "layout #0" ++ " from \"COMPONENT_0\";\n",
       "import * as " ++ mangle "page #1" ++ " from \"COMPONENT_1\";\n"] ∧
    (LoaderTreeModule.build c3tree none).inner_assets =
      [("COMPONENT_0", ModuleRef.processModule "L"),
       ("COMPONENT_1", ModuleRef.processModule "Q")] := by
  constructor
  · rfl
  · rfl

/-- C3 (amended): `walk_tree` compiles the node's own components into a
temporary buffer first and the children afterwards, then splices so the
children literal precedes the components text; consequently the node's own
components' counter allocations, import events and manifest insertions come
first (starting at the current counter), followed by those of the children
subtrees (starting at the components' final counter), followed by the
metadata emission. -/
theorem c3_components_effects_before_children (t : LoaderTree) (b : LoaderTreeBuilder)
    (root : Bool) (hb : b.Fresh) :
    (walkTree b t root).imports =
      foldEvents b.imports
        ((componentsTrace t.components b.counter).1.events ++
          ((routesTrace b.base_path t.parallel_routes
              (componentsTrace t.components b.counter).2).1.events ++
            (metadataTrace b.base_path t.page t.components.metadata
              (if root then some t.global_metadata else none)
              (routesTrace b.base_path t.parallel_routes
                (componentsTrace t.components b.counter).2).2).1.events)) ∧
    (walkTree b t root).inner_assets =
      b.inner_assets ++
        ((componentsTrace t.components b.counter).1.assets ++
          ((routesTrace b.base_path t.parallel_routes
              (componentsTrace t.components b.counter).2).1.assets ++
            (metadataTrace b.base_path t.page t.components.metadata
              (if root then some t.global_metadata else none)
              (routesTrace b.base_path t.parallel_routes
                (componentsTrace t.components b.counter).2).2).1.assets)) := by
  cases t with
  | mk app_page segment parallel_routes components gm =>
    obtain ⟨hw, _⟩ := walkTree_spec _ b root hb
    rw [hw]
    constructor
    · simp only [applyTrace, nodeTrace, LoaderTree.components, LoaderTree.parallel_routes,
        LoaderTree.page, LoaderTree.global_metadata, List.append_assoc]
    · simp only [applyTrace, nodeTrace, LoaderTree.components, LoaderTree.parallel_routes,
        LoaderTree.page, LoaderTree.global_metadata, List.append_assoc]

/-- C3 witness: the amended ordering at the concrete input. -/
theorem c3_components_effects_before_children_witness :
    (walkTree (LoaderTreeBuilder.new none) c3tree true).imports =
      foldEvents []
        ((componentsTrace c3tree.components 0).1.events ++
          ((routesTrace none c3tree.parallel_routes (componentsTrace c3tree.components 0).2).1.events ++
            (metadataTrace none c3tree.page c3tree.components.metadata (some c3tree.global_metadata) (routesTrace none c3tree.parallel_routes (componentsTrace c3tree.components 0).2).2).1.events)) ∧
    (walkTree (LoaderTreeBuilder.new none) c3tree true).inner_assets =
      [] ++
        ((componentsTrace c3tree.components 0).1.assets ++
          ((routesTrace none c3tree.parallel_routes (componentsTrace c3tree.components 0).2).1.assets ++
            (metadataTrace none c3tree.page c3tree.components.metadata (some c3tree.global_metadata) (routesTrace none c3tree.parallel_routes (componentsTrace c3tree.components 0).2).2).1.assets)) :=
  c3_components_effects_before_children c3tree (LoaderTreeBuilder.new none) true
    (freshAssets_nil 0)

theorem itemsTrace_nil (bp : Option String) (ap : AppPage) (name : String) (c : Nat) :
    itemsTrace bp ap name [] c = ({}, c) := rfl

theorem itemsLoopTrace_code_cons (bp : Option String) (ap : AppPage) (name : String)
    (x : MetadataWithAltItem) (xs : List MetadataWithAltItem) (c : Nat) :
    (itemsLoopTrace bp ap name (x :: xs) c).1.code =
      (itemTrace bp ap name x c).1.code ++
        (itemsLoopTrace bp ap name xs (itemTrace bp ap name x c).2).1.code := by
  simp [itemsLoopTrace, Trace.seq]

theorem itemsTrace_code_cons (bp : Option String) (ap : AppPage) (name : String)
    (x : MetadataWithAltItem) (xs : List MetadataWithAltItem) (c : Nat) :
    (itemsTrace bp ap name (x :: xs) c).1.code =
      "    " ++ name ++ ": [\n" ++
        (itemsLoopTrace bp ap name (x :: xs) c).1.code ++ "    ],\n" := by
  simp only [itemsTrace, List.isEmpty_cons, Bool.false_eq_true, if_false, Trace.seq,
    Trace.emit]
  apply String.ext
  simp [String.data_append]

/-- C8: for every segment with non-empty Metadata and every category, an
empty item list emits no key at all (the writer leaves the builder
unchanged and the trace is empty), while a non-empty list emits
`<name>: [ ... ]` with exactly one entry per item, in input order. -/
theorem c8_empty_category_omission :
    (∀ (b : LoaderTreeBuilder) (ap : AppPage) (name : String)
        (l : List MetadataWithAltItem), b.Fresh →
      writeMetadataItems b ap name l =
        applyTrace b (itemsTrace b.base_path ap name l b.counter)) ∧
    (∀ (b : LoaderTreeBuilder) (ap : AppPage) (name : String),
      writeMetadataItems b ap name [] = b) ∧
    (∀ (bp : Option String) (ap : AppPage) (name : String) (c : Nat),
      itemsTrace bp ap name [] c = ({}, c)) ∧
    (∀ (bp : Option String) (ap : AppPage) (name : String) (x : MetadataWithAltItem)
        (xs : List MetadataWithAltItem) (c : Nat),
      (itemsTrace bp ap name (x :: xs) c).1.code =
        "    " ++ name ++ ": [\n" ++
          (itemsLoopTrace bp ap name (x :: xs) c).1.code ++ "    ],\n") ∧
    (∀ (bp : Option String) (ap : AppPage) (name : String) (x : MetadataWithAltItem)
        (xs : List MetadataWithAltItem) (c : Nat),
      (itemsLoopTrace bp ap name (x :: xs) c).1.code =
        (itemTrace bp ap name x c).1.code ++
          (itemsLoopTrace bp ap name xs (itemTrace bp ap name x c).2).1.code) ∧
    (∀ (bp : Option String) (ap : AppPage) (name : String) (c : Nat),
      (itemsLoopTrace bp ap name [] c).1.code = "") := by
  refine ⟨?_, ?_, itemsTrace_nil, itemsTrace_code_cons, itemsLoopTrace_code_cons,
    fun _ _ _ _ => rfl⟩
  · intro b ap name l hb
    exact (writeMetadataItems_spec b ap name l hb).1
  · intro b ap name
    rfl

/-- C8 witness: the refinement instance at a concrete input. -/
theorem c8_empty_category_omission_witness :
    writeMetadataItems (LoaderTreeBuilder.new none) "/p" "icon"
        [MetadataWithAltItem.dynamic "icon.tsx"] =
      applyTrace (LoaderTreeBuilder.new none)
        (itemsTrace none "/p" "icon" [MetadataWithAltItem.dynamic "icon.tsx"] 0) :=
  c8_empty_category_omission.1 (LoaderTreeBuilder.new none) "/p" "icon"
    [MetadataWithAltItem.dynamic "icon.tsx"] (freshAssets_nil 0)

/-- The `url:` line of a static metadata thunk. -/
def staticUrlLine (bp : Option String) (ap : AppPage) (name : String)
    (item : MetadataWithAltItem) (c : Nat) : String :=
  "      " ++ "  url: fillMetadataSegment(" ++
    stringifyJs (match bp with | some base_path => base_path ++ "/" ++ ap | none => ap) ++
    ", props.params, " ++ stringifyJs (getMetadataRouteName item.toItem) ++
    ") + `?$\x7b" ++ mangle (name ++ " #" ++ Nat.repr c) ++
    ".src.split(\"/\").splice(-1)[0]\x7d`,\n"

/-- The `type:` line of a static metadata thunk. -/
def staticTypeLine (path : FsPath) : String :=
  "      " ++ "  type: `" ++ getContentType path ++ "`,\n"

/-- The optional `alt:` line of a static metadata thunk. -/
def staticAltCode (name : String) (alt : Option FsPath) (c : Nat) : String :=
  match alt with
  | none => ""
  | some _ => "      " ++ "  alt: " ++ mangle (name ++ " alt text #" ++ Nat.repr c) ++ ",\n"

set_option maxRecDepth 8192 in
/-- C7: a static item in the `twitter` or `openGraph` category emits
`width:`/`height:` lines and no `sizes:` line; a static item in any other
category emits a single `sizes: "{width}x{height}"` line and no
`width:`/`height:` lines. -/
theorem c7_category_field_shape :
    (∀ (b : LoaderTreeBuilder) (ap : AppPage) (name : String) (item : MetadataWithAltItem)
        (path : FsPath) (alt : Option FsPath), b.Fresh →
      writeStaticMetadataItem b ap name item path alt =
        applyTrace b (staticItemTrace b.base_path ap name item path alt b.counter)) ∧
    (∀ (bp : Option String) (ap : AppPage) (name : String) (item : MetadataWithAltItem)
        (path : FsPath) (alt : Option FsPath) (c : Nat),
      name = "twitter" ∨ name = "openGraph" →
      (staticItemTrace bp ap name item path alt c).1.code =
        "      (async (props) => [\x7b\n" ++ staticUrlLine bp ap name item c ++
          ("      " ++ "  width: " ++ mangle (name ++ " #" ++ Nat.repr c) ++ ".width,\n" ++
            "      " ++ "  height: " ++ mangle (name ++ " #" ++ Nat.repr c) ++ ".height,\n") ++
          staticTypeLine path ++ staticAltCode name alt c ++ "      \x7d]),\n") ∧
    (∀ (bp : Option String) (ap : AppPage) (name : String) (item : MetadataWithAltItem)
        (path : FsPath) (alt : Option FsPath) (c : Nat),
      name ≠ "twitter" → name ≠ "openGraph" →
      (staticItemTrace bp ap name item path alt c).1.code =
        "      (async (props) => [\x7b\n" ++ staticUrlLine bp ap name item c ++
          ("      " ++ "  sizes: `$\x7b" ++ mangle (name ++ " #" ++ Nat.repr c) ++
            ".width\x7dx$\x7b" ++ mangle (name ++ " #" ++ Nat.repr c) ++ ".height\x7d`,\n") ++
          staticTypeLine path ++ staticAltCode name alt c ++ "      \x7d]),\n") ∧
    ("  width: ".data <:+: (writeStaticMetadataItem (LoaderTreeBuilder.new none) "/p"
        "twitter" (MetadataWithAltItem.static "img" none) "img" none).loader_tree_code.data) ∧
    ("  height: ".data <:+: (writeStaticMetadataItem (LoaderTreeBuilder.new none) "/p"
        "twitter" (MetadataWithAltItem.static "img" none) "img" none).loader_tree_code.data) ∧
    ¬ ("sizes".data <:+: (writeStaticMetadataItem (LoaderTreeBuilder.new none) "/p"
        "twitter" (MetadataWithAltItem.static "img" none) "img" none).loader_tree_code.data) ∧
    ("  sizes: ".data <:+: (writeStaticMetadataItem (LoaderTreeBuilder.new none) "/p"
        "icon" (MetadataWithAltItem.static "img" none) "img" none).loader_tree_code.data) ∧
    ¬ ("  width: ".data <:+: (writeStaticMetadataItem (LoaderTreeBuilder.new none) "/p"
        "icon" (MetadataWithAltItem.static "img" none) "img" none).loader_tree_code.data) ∧
    ¬ ("  height: ".data <:+: (writeStaticMetadataItem (LoaderTreeBuilder.new none) "/p"
        "icon" (MetadataWithAltItem.static "img" none) "img" none).loader_tree_code.data) := by
  refine ⟨?_, ?_, ?_, by decide, by decide, by decide, by decide, by decide, by decide⟩
  · intro b ap name item path alt hb
    exact (writeStaticMetadataItem_spec b ap name item path alt hb).1
  · intro bp ap name item path alt c h
    rcases h with h | h <;> subst h <;> cases alt <;>
      simp [staticItemTrace, staticUrlLine, staticTypeLine, staticAltCode,
        String.append_assoc] <;>
    (apply String.ext; simp [String.data_append])
  · intro bp ap name item path alt c h1 h2
    have hb1 : (name == "twitter") = false := beq_eq_false_iff_ne.mpr h1
    have hb2 : (name == "openGraph") = false := beq_eq_false_iff_ne.mpr h2
    cases alt <;>
      simp [staticItemTrace, staticUrlLine, staticTypeLine, staticAltCode, hb1, hb2,
        String.append_assoc] <;>
    (apply String.ext; simp [String.data_append])

/-- C7 witness: the refinement and twitter-shape instances at concrete inputs. -/
theorem c7_category_field_shape_witness :
    (writeStaticMetadataItem (LoaderTreeBuilder.new none) "/p" "twitter"
        (MetadataWithAltItem.static "img" none) "img" none =
      applyTrace (LoaderTreeBuilder.new none)
        (staticItemTrace none "/p" "twitter" (MetadataWithAltItem.static "img" none)
          "img" none 0)) ∧
    (staticItemTrace none "/p" "twitter" (MetadataWithAltItem.static "img" none)
        "img" none 0).1.code =
      "      (async (props) => [\x7b\n" ++
        staticUrlLine none "/p" "twitter" (MetadataWithAltItem.static "img" none) 0 ++
        ("      " ++ "  width: " ++ mangle ("twitter" ++ " #" ++ Nat.repr 0) ++ ".width,\n" ++
          "      " ++ "  height: " ++ mangle ("twitter" ++ " #" ++ Nat.repr 0) ++
          ".height,\n") ++
        staticTypeLine "img" ++ staticAltCode "twitter" none 0 ++ "      \x7d]),\n" :=
  ⟨c7_category_field_shape.1 (LoaderTreeBuilder.new none) "/p" "twitter"
      (MetadataWithAltItem.static "img" none) "img" none (freshAssets_nil 0),
    c7_category_field_shape.2.1 none "/p" "twitter" (MetadataWithAltItem.static "img" none)
      "img" none 0 (Or.inl rfl)⟩

/-- C10 sample metadata: one dynamic icon item plus a base page. -/
def c10md : Metadata := { icon := [MetadataWithAltItem.dynamic "M"], base_page := some "/base" }

/-- C10 sample metadata with a static icon item and a base page. -/
def c10mdStatic : Metadata :=
  { icon := [MetadataWithAltItem.static "img" none], base_page := some "/base" }

set_option maxRecDepth 8192 in
/-- C10: when the segment's Metadata carries a `base_page`, all metadata
emission for that segment uses it in place of the node's own page (the own
page is irrelevant); when `base_page` is absent the node's own page is used
(setting `base_page` to the own page changes nothing).  At concrete inputs,
the synthesized dynamic metadata source records the base page as its route
path, and the static thunk URL prefix quotes the base page, never the own
page. -/
theorem c10_base_page_override :
    (∀ (b : LoaderTreeBuilder) (p q : AppPage) (md : Metadata)
        (g : Option GlobalMetadata), md.base_page = some q →
      writeMetadata b p md g = writeMetadata b q md g) ∧
    (∀ (b : LoaderTreeBuilder) (p : AppPage) (md : Metadata)
        (g : Option GlobalMetadata), md.base_page = none →
      writeMetadata b p md g =
        writeMetadata b p { md with base_page := some p } g) ∧
    (writeMetadata (LoaderTreeBuilder.new none) "/own" c10md none).inner_assets =
      [("METADATA_0", ModuleRef.dynamicMetadata "M" "icon" "/base")] ∧
    ((stringifyJs "/base").data <:+:
      (writeMetadata (LoaderTreeBuilder.new none) "/own" c10mdStatic
        none).loader_tree_code.data) ∧
    ¬ ("/own".data <:+:
      (writeMetadata (LoaderTreeBuilder.new none) "/own" c10mdStatic
        none).loader_tree_code.data) := by
  refine ⟨?_, ?_, by decide, by decide, by decide⟩
  · intro b p q md g h
    simp [writeMetadata, h]
  · intro b p md g h
    simp [writeMetadata, h, Metadata.is_empty]

/-- C10 witness: own-page irrelevance at a concrete input. -/
theorem c10_base_page_override_witness :
    writeMetadata (LoaderTreeBuilder.new none) "/own" c10md none =
      writeMetadata (LoaderTreeBuilder.new none) "/base" c10md none :=
  c10_base_page_override.1 (LoaderTreeBuilder.new none) "/own" "/base" c10md none rfl

/-- The favicon-to-icon-item conversion performed inline in `write_metadata`. -/
def favItemOf : MetadataItem → MetadataWithAltItem
  | .static path => .static path none
  | .dynamic path => .dynamic path

/-- C4 counterexample input: favicon present in GlobalMetadata but a fully
empty Metadata record at the root. -/
def c4tree : LoaderTree :=
  LoaderTree.mk "/" "" [] { metadata := {} }
    { favicon := some (MetadataItem.static "favicon.ico") }

set_option maxRecDepth 4096 in
/-- C4, as stated, is false: with a favicon in GlobalMetadata but an
otherwise empty Metadata record, `write_metadata` returns before the
favicon merge, so no metadata object and no icon array are emitted at all
— the icon array does not contain exactly one entry. -/
theorem c4_counterexample :
    c4tree.global_metadata.favicon = some (MetadataItem.static "favicon.ico") ∧
    ¬ ("metadata".data <:+: (LoaderTreeModule.build c4tree none).loader_tree_code.data) ∧
    ¬ ("icon".data <:+: (LoaderTreeModule.build c4tree none).loader_tree_code.data) := by
  refine ⟨rfl, by decide, by decide⟩

/-- C4 (amended): if the root's Metadata record is non-empty, its own icon
list is empty and GlobalMetadata carries a favicon, the emitted metadata
object's icon array contains exactly one entry, synthesized from the
favicon; a segment compiled without global metadata (every non-root
segment) never has the favicon added — its icon emission uses exactly its
own icon list.  If the root's Metadata record is entirely empty, no
metadata object is emitted at all despite the favicon. -/
theorem c4_favicon_merge :
    (∀ (b : LoaderTreeBuilder) (p : AppPage) (md : Metadata) (gm : GlobalMetadata),
      b.Fresh →
      writeMetadata b p md (some gm) =
        applyTrace b (metadataTrace b.base_path p md (some gm) b.counter)) ∧
    (∀ (bp : Option String) (ap : AppPage) (md : Metadata) (gm : GlobalMetadata)
        (fav : MetadataItem) (c : Nat),
      gm.favicon = some fav → md.icon = [] → md.is_empty = false →
      (metadataTrace bp ap md (some gm) c).1.code =
        "  metadata: \x7b" ++
          ("    icon: [\n" ++
            (itemTrace bp (md.base_page.getD ap) "icon" (favItemOf fav) c).1.code ++
            "    ],\n") ++
          (itemsTrace bp (md.base_page.getD ap) "apple" md.apple
            (itemTrace bp (md.base_page.getD ap) "icon" (favItemOf fav) c).2).1.code ++
          (itemsTrace bp (md.base_page.getD ap) "twitter" md.twitter
            (itemsTrace bp (md.base_page.getD ap) "apple" md.apple
              (itemTrace bp (md.base_page.getD ap) "icon" (favItemOf fav) c).2).2).1.code ++
          (itemsTrace bp (md.base_page.getD ap) "openGraph" md.open_graph
            (itemsTrace bp (md.base_page.getD ap) "twitter" md.twitter
              (itemsTrace bp (md.base_page.getD ap) "apple" md.apple
                (itemTrace bp (md.base_page.getD ap) "icon" (favItemOf fav) c).2).2).2).1.code ++
          (manifestTrace gm.manifest).code ++ "  \x7d,") ∧
    (∀ (bp : Option String) (ap : AppPage) (md : Metadata) (c : Nat),
      md.is_empty = false →
      (metadataTrace bp ap md none c).1.code =
        "  metadata: \x7b" ++
          (itemsTrace bp (md.base_page.getD ap) "icon" md.icon c).1.code ++
          (itemsTrace bp (md.base_page.getD ap) "apple" md.apple
            (itemsTrace bp (md.base_page.getD ap) "icon" md.icon c).2).1.code ++
          (itemsTrace bp (md.base_page.getD ap) "twitter" md.twitter
            (itemsTrace bp (md.base_page.getD ap) "apple" md.apple
              (itemsTrace bp (md.base_page.getD ap) "icon" md.icon c).2).2).1.code ++
          (itemsTrace bp (md.base_page.getD ap) "openGraph" md.open_graph
            (itemsTrace bp (md.base_page.getD ap) "twitter" md.twitter
              (itemsTrace bp (md.base_page.getD ap) "apple" md.apple
                (itemsTrace bp (md.base_page.getD ap) "icon" md.icon c).2).2).2).1.code ++
          "  \x7d,") ∧
    (∀ (b : LoaderTreeBuilder) (p : AppPage) (md : Metadata)
        (g : Option GlobalMetadata), md.is_empty = true → writeMetadata b p md g = b) := by
  refine ⟨?_, ?_, ?_, ?_⟩
  · intro b p md gm hb
    exact (writeMetadata_spec b p md (some gm) hb).1
  · intro bp ap md gm fav c hfav hicon hne
    have hne' : ¬ md.is_empty = true := by simp [hne]
    rw [metadataTrace_unfold bp ap md (some gm) c hne']
    cases fav <;>
      simp [hfav, hicon, favItemOf, itemsTrace, itemsLoopTrace, Trace.seq, Trace.emit,
        String.append_assoc] <;>
    (try (apply String.ext; simp [String.data_append]))
  · intro bp ap md c hne
    have hne' : ¬ md.is_empty = true := by simp [hne]
    rw [metadataTrace_unfold bp ap md none c hne']
    simp [Trace.seq, Trace.emit, Trace.nil_seq, String.append_assoc]
    try (apply String.ext; simp [String.data_append])
  · intro b p md g hemp
    simp [writeMetadata, hemp]

/-- C4 witness: the root favicon-merge instance at concrete inputs. -/
theorem c4_favicon_merge_witness :
    (metadataTrace none "/p" { apple := [MetadataWithAltItem.dynamic "A"] }
        (some { favicon := some (MetadataItem.static "favicon.ico") }) 0).1.code =
      "  metadata: \x7b" ++
        ("    icon: [\n" ++
          (itemTrace none "/p" "icon" (favItemOf (MetadataItem.static "favicon.ico"))
            0).1.code ++ "    ],\n") ++
        (itemsTrace none "/p" "apple" [MetadataWithAltItem.dynamic "A"]
          (itemTrace none "/p" "icon" (favItemOf (MetadataItem.static "favicon.ico"))
            0).2).1.code ++
        (itemsTrace none "/p" "twitter" []
          (itemsTrace none "/p" "apple" [MetadataWithAltItem.dynamic "A"]
            (itemTrace none "/p" "icon" (favItemOf (MetadataItem.static "favicon.ico"))
              0).2).2).1.code ++
        (itemsTrace none "/p" "openGraph" []
          (itemsTrace none "/p" "twitter" []
            (itemsTrace none "/p" "apple" [MetadataWithAltItem.dynamic "A"]
              (itemTrace none "/p" "icon" (favItemOf (MetadataItem.static "favicon.ico"))
                0).2).2).2).1.code ++
        (manifestTrace ({ favicon := some (MetadataItem.static "favicon.ico") }
          : GlobalMetadata).manifest).code ++ "  \x7d," :=
  c4_favicon_merge.2.1 none "/p" { apple := [MetadataWithAltItem.dynamic "A"] }
    { favicon := some (MetadataItem.static "favicon.ico") }
    (MetadataItem.static "favicon.ico") 0 rfl rfl rfl

mutual

/-- Replace every node's GlobalMetadata throughout a tree. -/
def mapGlobal (g : GlobalMetadata) : LoaderTree → LoaderTree
  | .mk app_page segment parallel_routes components _ =>
    .mk app_page segment (mapGlobalRoutes g parallel_routes) components g

/-- `mapGlobal` over a parallel-routes list. -/
def mapGlobalRoutes (g : GlobalMetadata) :
    List (String × LoaderTree) → List (String × LoaderTree)
  | [] => []
  | (key, t) :: rest => (key, mapGlobal g t) :: mapGlobalRoutes g rest

end

/-- The icon entries contributed by a global favicon, as prepended in
`write_metadata`. -/
def favPrefix : Option MetadataItem → List MetadataWithAltItem
  | some (MetadataItem.static path) => [MetadataWithAltItem.static path none]
  | some (MetadataItem.dynamic path) => [MetadataWithAltItem.dynamic path]
  | none => []

mutual

theorem nodeTrace_mapGlobal :
    ∀ (g : GlobalMetadata) (bp : Option String) (t : LoaderTree) (c : Nat),
      nodeTrace bp (mapGlobal g t) false c = nodeTrace bp t false c
  | g, bp, .mk app_page segment parallel_routes components gm, c => by
    simp only [mapGlobal, nodeTrace]
    rw [routesTrace_mapGlobal g bp parallel_routes (componentsTrace components c).2]
    rfl

theorem routesTrace_mapGlobal :
    ∀ (g : GlobalMetadata) (bp : Option String)
      (l : List (String × LoaderTree)) (c : Nat),
      routesTrace bp (mapGlobalRoutes g l) c = routesTrace bp l c
  | _, _, [], _ => rfl
  | g, bp, (key, t) :: rest, c => by
    simp only [mapGlobalRoutes, routesTrace]
    rw [nodeTrace_mapGlobal g bp t c,
      routesTrace_mapGlobal g bp rest (nodeTrace bp t false c).2]

end

/-- C5: a segment compiled as non-root ignores global metadata entirely —
its trace is invariant under replacing every node's GlobalMetadata — and
with no global metadata its emitted metadata object has no manifest field
and its icon array uses exactly the segment's own icon list; the root
segment's metadata object contains the manifest trace exactly once and at
most one favicon-derived icon entry, prepended before the segment's own
icon list. -/
theorem c5_global_scope :
    (∀ (g : GlobalMetadata) (bp : Option String) (t : LoaderTree) (c : Nat),
      nodeTrace bp (mapGlobal g t) false c = nodeTrace bp t false c) ∧
    (∀ (bp : Option String) (ap : AppPage) (md : Metadata) (c : Nat),
      md.is_empty = false →
      metadataTrace bp ap md none c =
        ((Trace.emit "  metadata: \x7b").seq
          ((itemsTrace bp (md.base_page.getD ap) "icon" md.icon c).1.seq
            ((itemsTrace bp (md.base_page.getD ap) "apple" md.apple
              (itemsTrace bp (md.base_page.getD ap) "icon" md.icon c).2).1.seq
              ((itemsTrace bp (md.base_page.getD ap) "twitter" md.twitter
                (itemsTrace bp (md.base_page.getD ap) "apple" md.apple
                  (itemsTrace bp (md.base_page.getD ap) "icon" md.icon c).2).2).1.seq
                ((itemsTrace bp (md.base_page.getD ap) "openGraph" md.open_graph
                  (itemsTrace bp (md.base_page.getD ap) "twitter" md.twitter
                    (itemsTrace bp (md.base_page.getD ap) "apple" md.apple
                      (itemsTrace bp (md.base_page.getD ap) "icon" md.icon
                        c).2).2).2).1.seq
                  (Trace.emit "  \x7d,"))))),
          (itemsTrace bp (md.base_page.getD ap) "openGraph" md.open_graph
            (itemsTrace bp (md.base_page.getD ap) "twitter" md.twitter
              (itemsTrace bp (md.base_page.getD ap) "apple" md.apple
                (itemsTrace bp (md.base_page.getD ap) "icon" md.icon
                  c).2).2).2).2)) ∧
    (∀ (bp : Option String) (ap : AppPage) (md : Metadata) (gm : GlobalMetadata)
        (c : Nat),
      md.is_empty = false →
      metadataTrace bp ap md (some gm) c =
        ((Trace.emit "  metadata: \x7b").seq
          ((itemsTrace bp (md.base_page.getD ap) "icon"
              (favPrefix gm.favicon ++ md.icon) c).1.seq
            ((itemsTrace bp (md.base_page.getD ap) "apple" md.apple
              (itemsTrace bp (md.base_page.getD ap) "icon"
                (favPrefix gm.favicon ++ md.icon) c).2).1.seq
              ((itemsTrace bp (md.base_page.getD ap) "twitter" md.twitter
                (itemsTrace bp (md.base_page.getD ap) "apple" md.apple
                  (itemsTrace bp (md.base_page.getD ap) "icon"
                    (favPrefix gm.favicon ++ md.icon) c).2).2).1.seq
                ((itemsTrace bp (md.base_page.getD ap) "openGraph" md.open_graph
                  (itemsTrace bp (md.base_page.getD ap) "twitter" md.twitter
                    (itemsTrace bp (md.base_page.getD ap) "apple" md.apple
                      (itemsTrace bp (md.base_page.getD ap) "icon"
                        (favPrefix gm.favicon ++ md.icon) c).2).2).2).1.seq
                  ((manifestTrace gm.manifest).seq (Trace.emit "  \x7d,")))))),
          (itemsTrace bp (md.base_page.getD ap) "openGraph" md.open_graph
            (itemsTrace bp (md.base_page.getD ap) "twitter" md.twitter
              (itemsTrace bp (md.base_page.getD ap) "apple" md.apple
                (itemsTrace bp (md.base_page.getD ap) "icon"
                  (favPrefix gm.favicon ++ md.icon) c).2).2).2).2)) := by
  refine ⟨nodeTrace_mapGlobal, ?_, ?_⟩
  · intro bp ap md c hne
    have hne' : ¬ md.is_empty = true := by simp [hne]
    rw [metadataTrace_unfold bp ap md none c hne']
    simp [Trace.nil_seq]
  · intro bp ap md gm c hne
    have hne' : ¬ md.is_empty = true := by simp [hne]
    rw [metadataTrace_unfold bp ap md (some gm) c hne']
    cases hf : gm.favicon with
    | none => simp [favPrefix, hf]
    | some f => cases f <;> simp [favPrefix, hf]

/-- C5 witness: the non-root invariance and root favicon instance at
concrete inputs. -/
theorem c5_global_scope_witness :
    nodeTrace none
        (mapGlobal { favicon := some (MetadataItem.static "f.ico") }
          (LoaderTree.mk "/" "" [] { page := some "P" } {})) false 0 =
      nodeTrace none (LoaderTree.mk "/" "" [] { page := some "P" } {}) false 0 ∧
    ({ icon := [MetadataWithAltItem.dynamic "I"] } : Metadata).is_empty = false :=
  ⟨c5_global_scope.1 { favicon := some (MetadataItem.static "f.ico") } none
      (LoaderTree.mk "/" "" [] { page := some "P" } {}) 0, rfl⟩

/-- Character abbreviations used in import-statement separation proofs. -/
def Chr.star : Char := Char.ofNat 42

def Chr.underscore : Char := Char.ofNat 95

/-- The plain (never-deduplicated) statements of an event list, in order. -/
def plainStmts : List ImportEvent → List String
  | [] => []
  | ImportEvent.helper :: es => plainStmts es
  | ImportEvent.plain s :: es => s :: plainStmts es

/-- No plain import statement of the event list equals the deduplicated
helper import. -/
def EventsOk (es : List ImportEvent) : Prop :=
  ∀ s, ImportEvent.plain s ∈ es → s ≠ helperImport

theorem eventsOk_nil : EventsOk [] := by
  intro s hs
  cases hs

theorem eventsOk_append {e1 e2 : List ImportEvent} (h1 : EventsOk e1)
    (h2 : EventsOk e2) : EventsOk (e1 ++ e2) := by
  intro s hs
  rcases List.mem_append.mp hs with h | h
  · exact h1 s h
  · exact h2 s h

theorem eventsOk_seq {a b : Trace} (ha : EventsOk a.events) (hb : EventsOk b.events) :
    EventsOk (a.seq b).events := eventsOk_append ha hb

theorem eventsOk_emit (s : String) : EventsOk (Trace.emit s).events := eventsOk_nil

theorem eventsOk_cons_helper {es : List ImportEvent} (h : EventsOk es) :
    EventsOk (ImportEvent.helper :: es) := by
  intro s hs
  rcases List.mem_cons.mp hs with h2 | h2
  · cases h2
  · exact h s h2

theorem eventsOk_cons_plain {s0 : String} {es : List ImportEvent}
    (h0 : s0 ≠ helperImport) (h : EventsOk es) :
    EventsOk (ImportEvent.plain s0 :: es) := by
  intro s hs
  rcases List.mem_cons.mp hs with h2 | h2
  · injection h2 with h3
    subst h3
    exact h0
  · exact h s h2

theorem getElem7_of_append (pre r : String) (c : Char)
    (h : pre.data[7]? = some c) : (pre ++ r).data[7]? = some c := by
  have hl : 7 < pre.data.length := by
    by_contra hc2
    push_neg at hc2
    rw [List.getElem?_eq_none (by omega)] at h
    cases h
  rw [String.data_append, List.getElem?_append, if_pos hl]
  exact h

/-- A string whose 8th character is not the opening brace of the helper
statement differs from the helper import. -/
theorem ne_helperImport_of_get7 {s : String} {c : Char}
    (hs : s.data[7]? = some c) (hc : ¬ c = Char.ofNat 123) : s ≠ helperImport := by
  intro h
  rw [h] at hs
  have h2 : helperImport.data[7]? = some (Char.ofNat 123) := by decide
  rw [h2] at hs
  exact hc (Option.some.inj hs).symm

theorem get7_import_star (r : String) :
    ("import * as " ++ r).data[7]? = some Chr.star :=
  getElem7_of_append _ _ _ rfl

theorem get7_import_mangle (x : String) :
    ("import " ++ mangle x).data[7]? = some Chr.underscore := by
  have h : "import " ++ mangle x = "import __TURBOPACK__" ++ (x ++ "__") := by
    simp only [mangle]
    apply String.ext
    simp [String.data_append]
  rw [h]
  exact getElem7_of_append _ _ _ rfl

theorem componentTrace_eventsOk (ty : ComponentType) (comp : Option FsPath) (c : Nat) :
    EventsOk (componentTrace ty comp c).1.events := by
  cases comp with
  | none => exact eventsOk_nil
  | some comp =>
    refine eventsOk_cons_plain ?_ eventsOk_nil
    have hg : ("import * as " ++ mangle (ComponentType.name ty ++ " #" ++ Nat.repr c) ++
        " from \"COMPONENT_" ++ Nat.repr c ++ "\";\n").data[7]? = some Chr.star
      := getElem7_of_append _ _ _ (getElem7_of_append _ _ _ (getElem7_of_append _ _ _
        (get7_import_star _)))
    exact ne_helperImport_of_get7 hg (by decide)

theorem componentsTrace_eventsOk (comps : Components) (c : Nat) :
    EventsOk (componentsTrace comps c).1.events :=
  eventsOk_seq (componentTrace_eventsOk _ _ _) (eventsOk_seq (componentTrace_eventsOk _ _ _)
    (eventsOk_seq (componentTrace_eventsOk _ _ _) (eventsOk_seq (componentTrace_eventsOk _ _ _)
      (eventsOk_seq (componentTrace_eventsOk _ _ _)
        (eventsOk_seq (componentTrace_eventsOk _ _ _) (componentTrace_eventsOk _ _ _))))))

theorem manifestTrace_eventsOk (m : Option MetadataItem) :
    EventsOk (manifestTrace m).events := by
  cases m with
  | none => exact eventsOk_nil
  | some m => exact eventsOk_nil

theorem staticItemTrace_eventsOk (bp : Option String) (ap : AppPage) (name : String)
    (item : MetadataWithAltItem) (path : FsPath) (alt : Option FsPath) (c : Nat) :
    EventsOk (staticItemTrace bp ap name item path alt c).1.events := by
  have hmeta : ("import " ++ mangle (name ++ " #" ++ Nat.repr c) ++ " from \"METADATA_" ++
      Nat.repr c ++ "\";") ≠ helperImport := by
    have hg : ("import " ++ mangle (name ++ " #" ++ Nat.repr c) ++ " from \"METADATA_" ++
        Nat.repr c ++ "\";").data[7]? = some Chr.underscore
      := getElem7_of_append _ _ _ (getElem7_of_append _ _ _ (getElem7_of_append _ _ _
        (get7_import_mangle _)))
    exact ne_helperImport_of_get7 hg (by decide)
  cases alt with
  | none =>
    exact eventsOk_cons_helper (eventsOk_cons_plain hmeta eventsOk_nil)
  | some a =>
    refine eventsOk_cons_helper (eventsOk_cons_plain hmeta (eventsOk_cons_plain ?_ eventsOk_nil))
    have hg : ("import " ++ mangle (name ++ " alt text #" ++ Nat.repr c) ++
        " from \"METADATA_ALT_" ++ Nat.repr c ++ "\";").data[7]? = some Chr.underscore
      := getElem7_of_append _ _ _ (getElem7_of_append _ _ _ (getElem7_of_append _ _ _
        (get7_import_mangle _)))
    exact ne_helperImport_of_get7 hg (by decide)

theorem itemTrace_eventsOk (bp : Option String) (ap : AppPage) (name : String)
    (item : MetadataWithAltItem) (c : Nat) :
    EventsOk (itemTrace bp ap name item c).1.events := by
  cases item with
  | static path alt => exact staticItemTrace_eventsOk bp ap name _ path alt c
  | dynamic path =>
    refine eventsOk_cons_plain ?_ eventsOk_nil
    have hg : ("import " ++ mangle (name ++ " #" ++ Nat.repr c) ++ " from \"METADATA_" ++
        Nat.repr c ++ "\";").data[7]? = some Chr.underscore
      := getElem7_of_append _ _ _ (getElem7_of_append _ _ _ (getElem7_of_append _ _ _
        (get7_import_mangle _)))
    exact ne_helperImport_of_get7 hg (by decide)

theorem itemsLoopTrace_eventsOk (bp : Option String) (ap : AppPage) (name : String) :
    ∀ (l : List MetadataWithAltItem) (c : Nat),
      EventsOk (itemsLoopTrace bp ap name l c).1.events
  | [], _ => eventsOk_nil
  | _ :: rest, c =>
    eventsOk_seq (itemTrace_eventsOk bp ap name _ c)
      (itemsLoopTrace_eventsOk bp ap name rest _)

theorem itemsTrace_eventsOk (bp : Option String) (ap : AppPage) (name : String)
    (l : List MetadataWithAltItem) (c : Nat) :
    EventsOk (itemsTrace bp ap name l c).1.events := by
  simp only [itemsTrace]
  split
  · exact eventsOk_nil
  · exact eventsOk_seq (eventsOk_emit _)
      (eventsOk_seq (itemsLoopTrace_eventsOk bp ap name l c) (eventsOk_emit _))

theorem metadataTrace_eventsOk (bp : Option String) (ap : AppPage) (md : Metadata)
    (g : Option GlobalMetadata) (c : Nat) :
    EventsOk (metadataTrace bp ap md g c).1.events := by
  by_cases hemp : md.is_empty = true
  · rw [show metadataTrace bp ap md g c = ({}, c) from by simp [metadataTrace, hemp]]
    exact eventsOk_nil
  · rw [metadataTrace_unfold bp ap md g c hemp]
    refine eventsOk_seq (eventsOk_emit _) (eventsOk_seq (itemsTrace_eventsOk _ _ _ _ _)
      (eventsOk_seq (itemsTrace_eventsOk _ _ _ _ _)
        (eventsOk_seq (itemsTrace_eventsOk _ _ _ _ _)
          (eventsOk_seq (itemsTrace_eventsOk _ _ _ _ _)
            (eventsOk_seq ?_ (eventsOk_emit _))))))
    cases g with
    | none => exact eventsOk_nil
    | some gm => exact manifestTrace_eventsOk _

mutual

theorem nodeTrace_eventsOk :
    ∀ (bp : Option String) (t : LoaderTree) (root : Bool) (c : Nat),
      EventsOk (nodeTrace bp t root c).1.events
  | bp, .mk app_page segment parallel_routes components gm, root, c =>
    eventsOk_append
      (eventsOk_append (componentsTrace_eventsOk components c)
        (routesTrace_eventsOk bp parallel_routes (componentsTrace components c).2))
      (metadataTrace_eventsOk bp app_page components.metadata
        (if root then some gm else none)
        (routesTrace bp parallel_routes (componentsTrace components c).2).2)

theorem routesTrace_eventsOk :
    ∀ (bp : Option String) (l : List (String × LoaderTree)) (c : Nat),
      EventsOk (routesTrace bp l c).1.events
  | _, [], _ => eventsOk_nil
  | bp, (key, t) :: rest, c =>
    eventsOk_seq (eventsOk_emit _)
      (eventsOk_seq (nodeTrace_eventsOk bp t false c)
        (eventsOk_seq (eventsOk_emit _)
          (routesTrace_eventsOk bp rest (nodeTrace bp t false c).2)))

end

theorem foldEvents_count_helper (es : List ImportEvent) (imports : List String)
    (h : EventsOk es) :
    (foldEvents imports es).count helperImport ≤ max (imports.count helperImport) 1 := by
  induction es generalizing imports with
  | nil => exact le_max_left _ _
  | cons e es ih =>
    have htail : EventsOk es := fun s hs => h s (List.mem_cons_of_mem _ hs)
    cases e with
    | helper =>
      simp only [foldEvents]
      by_cases hm : helperImport ∈ imports
      · rw [if_pos hm]
        exact ih imports htail
      · rw [if_neg hm]
        have h1 := ih (imports ++ [helperImport]) htail
        have hc : (imports ++ [helperImport]).count helperImport = 1 := by
          rw [List.count_append, List.count_eq_zero.mpr hm]
          simp
        rw [hc] at h1
        have h0 : imports.count helperImport = 0 := List.count_eq_zero.mpr hm
        rw [h0]
        simpa using h1
    | plain s =>
      simp only [foldEvents]
      have hs : s ≠ helperImport := h s (List.mem_cons_self _ _)
      have h1 := ih (imports ++ [s]) htail
      have hc : (imports ++ [s]).count helperImport = imports.count helperImport := by
        rw [List.count_append]
        have h2 : ([s] : List String).count helperImport = 0 :=
          List.count_eq_zero.mpr (by simp only [List.mem_singleton]; exact Ne.symm hs)
        rw [h2]
        simp
      rw [hc] at h1
      exact h1

theorem foldEvents_filter (es : List ImportEvent) (imports : List String)
    (h : EventsOk es) :
    (foldEvents imports es).filter (fun s => s != helperImport) =
      imports.filter (fun s => s != helperImport) ++ plainStmts es := by
  induction es generalizing imports with
  | nil => simp [foldEvents, plainStmts]
  | cons e es ih =>
    have htail : EventsOk es := fun s hs => h s (List.mem_cons_of_mem _ hs)
    cases e with
    | helper =>
      simp only [foldEvents, plainStmts]
      by_cases hm : helperImport ∈ imports
      · rw [if_pos hm]
        exact ih imports htail
      · rw [if_neg hm]
        rw [ih (imports ++ [helperImport]) htail, List.filter_append]
        simp
    | plain s =>
      simp only [foldEvents, plainStmts]
      have hs : s ≠ helperImport := h s (List.mem_cons_self _ _)
      rw [ih (imports ++ [s]) htail, List.filter_append]
      have hf : List.filter (fun s2 => s2 != helperImport) [s] = [s] := by
        simp [hs]
      rw [hf, List.append_assoc]
      simp

/-- C9: in one compilation the shared helper import occurs at most once in
the produced imports list, while every other import statement is appended
at first use without deduplication, so the imports list filtered of the
helper equals the sequence of plain import emissions in first-use order. -/
theorem c9_import_dedup :
    (∀ (t : LoaderTree) (bp : Option String),
      ((LoaderTreeModule.build t bp).imports).count helperImport ≤ 1) ∧
    (∀ (t : LoaderTree) (bp : Option String),
      (LoaderTreeModule.build t bp).imports.filter (fun s => s != helperImport) =
        plainStmts (nodeTrace bp t true 0).1.events) := by
  constructor
  · intro t bp
    have himp : (LoaderTreeModule.build t bp).imports =
        foldEvents [] (nodeTrace bp t true 0).1.events := by
      rw [(build_spec t bp).1]
    rw [himp]
    have h1 := foldEvents_count_helper _ [] (nodeTrace_eventsOk bp t true 0)
    simpa using h1
  · intro t bp
    have himp : (LoaderTreeModule.build t bp).imports =
        foldEvents [] (nodeTrace bp t true 0).1.events := by
      rw [(build_spec t bp).1]
    rw [himp, foldEvents_filter _ [] (nodeTrace_eventsOk bp t true 0)]
    simp

/-- A string is safe as an identifier tag if it contains no hash. -/
theorem ne_append_alt (s : String) : s ≠ s ++ " alt text" := by
  intro h
  have h2 := congrArg (fun x => x.data.length) h
  simp [String.data_append] at h2

/-- Counter-range well-formedness of an ident list: every recorded
identifier tag is hash-free and its counter lies in `[a, b)`, the counters
never decrease across the range, and the entries are pairwise distinct. -/
def IdentsOk (a b : Nat) (l : List (String × Nat)) : Prop :=
  a ≤ b ∧ (∀ p ∈ l, (a ≤ p.2 ∧ p.2 < b) ∧ '#' ∉ p.1.data) ∧ l.Nodup

theorem identsOk_nil (a : Nat) : IdentsOk a a [] := by
  refine ⟨Nat.le_refl a, ?_, List.nodup_nil⟩
  intro p hp
  cases hp

theorem identsOk_append {a b d : Nat} {l1 l2 : List (String × Nat)}
    (h1 : IdentsOk a b l1) (h2 : IdentsOk b d l2) : IdentsOk a d (l1 ++ l2) := by
  obtain ⟨hab, hb1, hn1⟩ := h1
  obtain ⟨hbd, hb2, hn2⟩ := h2
  refine ⟨Nat.le_trans hab hbd, ?_, ?_⟩
  · intro p hp
    rcases List.mem_append.mp hp with h | h
    · obtain ⟨⟨hl, hr⟩, hh⟩ := hb1 p h
      exact ⟨⟨hl, Nat.lt_of_lt_of_le hr hbd⟩, hh⟩
    · obtain ⟨⟨hl, hr⟩, hh⟩ := hb2 p h
      exact ⟨⟨Nat.le_trans hab hl, hr⟩, hh⟩
  · refine List.Nodup.append hn1 hn2 ?_
    intro p hp1 hp2
    obtain ⟨⟨_, hr⟩, _⟩ := hb1 p hp1
    obtain ⟨⟨hl, _⟩, _⟩ := hb2 p hp2
    omega

theorem identsOk_seq {a b d : Nat} {t1 t2 : Trace}
    (h1 : IdentsOk a b t1.idents) (h2 : IdentsOk b d t2.idents) :
    IdentsOk a d (t1.seq t2).idents := identsOk_append h1 h2

theorem identsOk_nil_of_eq {a : Nat} {l : List (String × Nat)} (h : l = []) :
    IdentsOk a a l := by
  subst h
  exact identsOk_nil a

theorem identsOk_single (a : Nat) (tag : String) (h : '#' ∉ tag.data) :
    IdentsOk a (a + 1) [(tag, a)] := by
  refine ⟨Nat.le_succ a, ?_, List.nodup_singleton _⟩
  intro p hp
  rw [List.mem_singleton] at hp
  subst hp
  exact ⟨⟨Nat.le_refl a, Nat.lt_succ_self a⟩, h⟩

theorem componentType_name_hashFree (ty : ComponentType) : '#' ∉ ty.name.data := by
  cases ty <;> decide

theorem componentTrace_identsOk (ty : ComponentType) (comp : Option FsPath) (c : Nat) :
    IdentsOk c (componentTrace ty comp c).2 (componentTrace ty comp c).1.idents := by
  cases comp with
  | none => exact identsOk_nil c
  | some comp => exact identsOk_single c ty.name (componentType_name_hashFree ty)

theorem componentsTrace_identsOk (comps : Components) (c : Nat) :
    IdentsOk c (componentsTrace comps c).2 (componentsTrace comps c).1.idents :=
  identsOk_seq (componentTrace_identsOk _ _ _) (identsOk_seq (componentTrace_identsOk _ _ _)
    (identsOk_seq (componentTrace_identsOk _ _ _) (identsOk_seq (componentTrace_identsOk _ _ _)
      (identsOk_seq (componentTrace_identsOk _ _ _)
        (identsOk_seq (componentTrace_identsOk _ _ _) (componentTrace_identsOk _ _ _))))))

theorem hashFree_alt {name : String} (hn : '#' ∉ name.data) :
    '#' ∉ (name ++ " alt text").data := by
  rw [String.data_append]
  intro hm
  rcases List.mem_append.mp hm with h | h
  · exact hn h
  · exact absurd h (by decide)

theorem staticItemTrace_identsOk (bp : Option String) (ap : AppPage) (name : String)
    (item : MetadataWithAltItem) (path : FsPath) (alt : Option FsPath) (c : Nat)
    (hn : '#' ∉ name.data) :
    IdentsOk c (staticItemTrace bp ap name item path alt c).2
      (staticItemTrace bp ap name item path alt c).1.idents := by
  cases alt with
  | none =>
    refine ⟨Nat.le_succ c, ?_, ?_⟩
    · intro p hp
      rcases List.mem_append.mp hp with h | h
      · rw [List.mem_singleton] at h
        subst h
        exact ⟨⟨Nat.le_refl c, Nat.lt_succ_self c⟩, hn⟩
      · cases h
    · show List.Nodup ([(name, c)] ++ ([] : List (String × Nat)))
      simp
  | some a =>
    refine ⟨Nat.le_succ c, ?_, ?_⟩
    · intro p hp
      rcases List.mem_append.mp hp with h | h
      · rw [List.mem_singleton] at h
        subst h
        exact ⟨⟨Nat.le_refl c, Nat.lt_succ_self c⟩, hn⟩
      · rw [List.mem_singleton] at h
        subst h
        exact ⟨⟨Nat.le_refl c, Nat.lt_succ_self c⟩, hashFree_alt hn⟩
    · show List.Nodup ([(name, c)] ++ [(name ++ " alt text", c)])
      simp only [List.singleton_append, List.nodup_cons, List.mem_singleton,
        List.nodup_singleton, and_true]
      refine ⟨fun h => ne_append_alt name (congrArg Prod.fst h), by simp, List.nodup_nil⟩

theorem itemTrace_identsOk (bp : Option String) (ap : AppPage) (name : String)
    (item : MetadataWithAltItem) (c : Nat) (hn : '#' ∉ name.data) :
    IdentsOk c (itemTrace bp ap name item c).2 (itemTrace bp ap name item c).1.idents := by
  cases item with
  | static path alt => exact staticItemTrace_identsOk bp ap name _ path alt c hn
  | dynamic path => exact identsOk_single c name hn

theorem itemsLoopTrace_identsOk (bp : Option String) (ap : AppPage) (name : String)
    (hn : '#' ∉ name.data) :
    ∀ (l : List MetadataWithAltItem) (c : Nat),
      IdentsOk c (itemsLoopTrace bp ap name l c).2 (itemsLoopTrace bp ap name l c).1.idents
  | [], c => identsOk_nil c
  | item :: rest, c =>
    identsOk_seq (itemTrace_identsOk bp ap name item c hn)
      (itemsLoopTrace_identsOk bp ap name hn rest _)

theorem itemsTrace_identsOk (bp : Option String) (ap : AppPage) (name : String)
    (l : List MetadataWithAltItem) (c : Nat) (hn : '#' ∉ name.data) :
    IdentsOk c (itemsTrace bp ap name l c).2 (itemsTrace bp ap name l c).1.idents := by
  simp only [itemsTrace]
  split
  · exact identsOk_nil c
  · exact identsOk_seq (identsOk_nil c)
      (identsOk_seq (itemsLoopTrace_identsOk bp ap name hn l c) (identsOk_nil _))

theorem manifestTrace_idents (m : Option MetadataItem) : (manifestTrace m).idents = [] := by
  cases m <;> rfl

theorem metadataTrace_identsOk (bp : Option String) (ap : AppPage) (md : Metadata)
    (g : Option GlobalMetadata) (c : Nat) :
    IdentsOk c (metadataTrace bp ap md g c).2 (metadataTrace bp ap md g c).1.idents := by
  by_cases hemp : md.is_empty = true
  · rw [show metadataTrace bp ap md g c = ({}, c) from by simp [metadataTrace, hemp]]
    exact identsOk_nil c
  · rw [metadataTrace_unfold bp ap md g c hemp]
    cases g with
    | none =>
      exact identsOk_seq (identsOk_nil _)
        (identsOk_seq (itemsTrace_identsOk _ _ _ _ _ (by decide))
          (identsOk_seq (itemsTrace_identsOk _ _ _ _ _ (by decide))
            (identsOk_seq (itemsTrace_identsOk _ _ _ _ _ (by decide))
              (identsOk_seq (itemsTrace_identsOk _ _ _ _ _ (by decide))
                (identsOk_seq (identsOk_nil _) (identsOk_nil _))))))
    | some gm =>
      exact identsOk_seq (identsOk_nil _)
        (identsOk_seq (itemsTrace_identsOk _ _ _ _ _ (by decide))
          (identsOk_seq (itemsTrace_identsOk _ _ _ _ _ (by decide))
            (identsOk_seq (itemsTrace_identsOk _ _ _ _ _ (by decide))
              (identsOk_seq (itemsTrace_identsOk _ _ _ _ _ (by decide))
                (identsOk_seq (identsOk_nil_of_eq (manifestTrace_idents gm.manifest))
                  (identsOk_nil _))))))

mutual

theorem nodeTrace_identsOk :
    ∀ (bp : Option String) (t : LoaderTree) (root : Bool) (c : Nat),
      IdentsOk c (nodeTrace bp t root c).2 (nodeTrace bp t root c).1.idents
  | bp, .mk app_page segment parallel_routes components gm, root, c =>
    identsOk_append
      (identsOk_append (componentsTrace_identsOk components c)
        (routesTrace_identsOk bp parallel_routes (componentsTrace components c).2))
      (metadataTrace_identsOk bp app_page components.metadata
        (if root then some gm else none)
        (routesTrace bp parallel_routes (componentsTrace components c).2).2)

theorem routesTrace_identsOk :
    ∀ (bp : Option String) (l : List (String × LoaderTree)) (c : Nat),
      IdentsOk c (routesTrace bp l c).2 (routesTrace bp l c).1.idents
  | _, [], c => identsOk_nil c
  | bp, (key, t) :: rest, c =>
    identsOk_seq (identsOk_nil c)
      (identsOk_seq (nodeTrace_identsOk bp t false c)
        (identsOk_seq (identsOk_nil _)
          (routesTrace_identsOk bp rest (nodeTrace bp t false c).2)))

end

/-- Counter-distinct, hash-free ident records render to pairwise distinct
mangled identifiers. -/
theorem identsOk_render_nodup {a b : Nat} {l : List (String × Nat)}
    (h : IdentsOk a b l) :
    (l.map (fun p => mangle (tagStr p.1 p.2))).Nodup := by
  obtain ⟨_, hb, hnd⟩ := h
  refine List.Nodup.map_on ?_ hnd
  intro p hp q hq heq
  have h1 : tagStr p.1 p.2 = tagStr q.1 q.2 := mangle_injective heq
  obtain ⟨ht, hi⟩ := tagStr_inj (hb p hp).2 (hb q hq).2 h1
  cases p
  cases q
  simp only at ht hi
  simp [ht, hi]

/-- C6: the allocator hands out `counter`, then increments it; a fresh
builder starts at zero; traversal never decreases the counter; all
generated mangled identifiers of one compilation are pairwise distinct,
even across emission sites sharing a tag word; and all synthetic inner
asset names of the built module are pairwise distinct. -/
theorem c6_identifier_uniqueness :
    (∀ (b : LoaderTreeBuilder),
      b.uniqueNumber = (b.counter, { b with counter := b.counter + 1 })) ∧
    (∀ bp : Option String, (LoaderTreeBuilder.new bp).counter = 0) ∧
    (∀ (bp : Option String) (t : LoaderTree) (root : Bool) (c : Nat),
      c ≤ (nodeTrace bp t root c).2) ∧
    (∀ (bp : Option String) (t : LoaderTree) (root : Bool) (c : Nat),
      ((nodeTrace bp t root c).1.idents.map (fun p => mangle (tagStr p.1 p.2))).Nodup) ∧
    (∀ (t : LoaderTree) (bp : Option String),
      ((LoaderTreeModule.build t bp).inner_assets.map Prod.fst).Nodup) := by
  refine ⟨fun b => rfl, fun bp => rfl, ?_, ?_, ?_⟩
  · intro bp t root c
    exact (nodeTrace_identsOk bp t root c).1
  · intro bp t root c
    exact identsOk_render_nodup (nodeTrace_identsOk bp t root c)
  · intro t bp
    exact (build_spec t bp).2

end NextCore
